import Mathlib

/-!
# Petzy preference synchronisation: payload builder, store protocol, action guard

A shallow embedding of `src/hooks/usePreferences.js` (the `updatePreferences`
payload builder and persistence decision, `clientActionGuard`, `guardedUpdate`,
`createUser`, `recordInteraction`, the subscription handlers of the hook), of
`incrementDailyAction` and `computeStats` from `src/components/MainContent.js`,
of `getTodayCounts`, `computeStats` and `computeStreak` from
`src/components/LeftSidebar.js` (with the local-time arithmetic of the `Date`
calls it makes), of `recordInteraction` from
`src/components/RightSidebar.js` and of `confirm` from
`src/components/PetModelSelectPage.js`.

JavaScript values are embedded as the inductive type `JsVal`.  Numbers are the
integers (the counters, increments and timestamps of the program are integers);
objects are association lists in own-property enumeration order.
-/

namespace Petzy

/-! ## JavaScript values -/

/-- A JavaScript value.  An object is the list of its own enumerable properties
in `Object.keys` order; a well-formed object has pairwise distinct keys. -/
inductive JsVal where
  | undef : JsVal
  | null : JsVal
  | bool (b : Bool) : JsVal
  | num (n : Int) : JsVal
  | str (s : String) : JsVal
  | arr (items : List JsVal) : JsVal
  | obj (fields : List (String × JsVal)) : JsVal

/-- The own properties of an object. -/
abbrev Fields := List (String × JsVal)

/-- Lookup by key in an object, a `Map` or a payload: the first entry with that
key. -/
def assocGet {α : Type} : List (String × α) → String → Option α
  | [], _ => none
  | (k, v) :: rest, key => if k = key then some v else assocGet rest key

/-- Assignment `o[key] = v` (and `Map.set`): an existing key keeps its position
and takes the new value, a new key is appended. -/
def assocSet {α : Type} : List (String × α) → String → α → List (String × α)
  | [], key, v => [(key, v)]
  | (k, w) :: rest, key, v =>
    if k = key then (k, v) :: rest else (k, w) :: assocSet rest key v

/-- Property read `o[key]` on the own properties of an object: `undefined` when
there is no such property. -/
def getProp (fs : Fields) (key : String) : JsVal :=
  (assocGet fs key).getD JsVal.undef

namespace JsVal

/-- JavaScript truthiness (`ToBoolean`). -/
def truthy : JsVal → Bool
  | undef => false
  | null => false
  | bool b => b
  | num n => decide (n ≠ 0)
  | str s => decide (s ≠ "")
  | arr _ => true
  | obj _ => true

/-- The test `typeof v === "object"`. -/
def typeofObject : JsVal → Bool
  | null => true
  | arr _ => true
  | obj _ => true
  | _ => false

/-- The test `Array.isArray(v)`. -/
def isArray : JsVal → Bool
  | arr _ => true
  | _ => false

/-- The list `Object.keys(v)` of a value that passed the object test. -/
def keys : JsVal → List String
  | obj fs => fs.map Prod.fst
  | _ => []

/-- Property read `v[key]` / `v.key` for a property name that is not a built-in
member of strings or arrays (`__op`, `n`, field names): `undefined` on anything
that is not an object. -/
def get : JsVal → String → JsVal
  | obj fs, key => getProp fs key
  | _, _ => undef

/-- Strict equality with a string literal, `v === s`. -/
def isStr : JsVal → String → Bool
  | str t, s => decide (t = s)
  | _, _ => false

/-- The operator `a || b`. -/
def or (a b : JsVal) : JsVal := if a.truthy then a else b

end JsVal

/-! ## Payload builder of `updatePreferences` (lines 226-257) -/

/-- A value of the payload handed to `updateDoc`: a literal, or the sentinel
returned by `increment(operand)`. -/
inductive Instr where
  | lit (v : JsVal) : Instr
  | increment (operand : JsVal) : Instr

/-- The payload object: dotted field path to instruction, in insertion order. -/
abbrev Payload := List (String × Instr)

/-- The increment-tagged leaf `{ __op: "inc", n: N }`. -/
def incTag (n : Int) : JsVal :=
  JsVal.obj [("__op", JsVal.str "inc"), ("n", JsVal.num n)]

/-- The predicate of `nestedKeys.some(...)` (lines 235-239): the leaf is a
non-array object whose `__op` is `"inc"`. -/
def isIncLeaf (v : JsVal) : Bool :=
  v.truthy && v.typeofObject && !v.isArray && (v.get "__op").isStr "inc"

/-- The test of the inner loop (line 245): `nestedVal && nestedVal.__op === "inc"`. -/
def innerIsInc (nestedVal : JsVal) : Bool :=
  nestedVal.truthy && (nestedVal.get "__op").isStr "inc"

/-- The template literal of lines 246 and 248. -/
def nestedPath (key nestedKey : String) : String :=
  "preferences." ++ key ++ "." ++ nestedKey

/-- The template literal of line 256. -/
def fieldPath (key : String) : String := "preferences." ++ key

/-- The instruction written for one nested key (lines 244-249). -/
def leafInstr (nestedVal : JsVal) : Instr :=
  if innerIsInc nestedVal then
    Instr.increment ((nestedVal.get "n").or (JsVal.num 1))
  else
    Instr.lit nestedVal

/-- The body of the outer `forEach` (lines 228-257) for one top-level key. -/
def processKey (newPrefs : Fields) (payload : Payload) (key : String) : Payload :=
  let value := getProp newPrefs key
  if value.truthy && value.typeofObject && !value.isArray then
    let nestedKeys := value.keys
    let hasNestedInc := nestedKeys.any (fun nk => isIncLeaf (value.get nk))
    if hasNestedInc then
      nestedKeys.foldl
        (fun p nestedKey => assocSet p (nestedPath key nestedKey) (leafInstr (value.get nestedKey)))
        payload
    else
      assocSet payload (fieldPath key) (Instr.lit value)
  else
    assocSet payload (fieldPath key) (Instr.lit value)

/-- The payload built by `updatePreferences` from the update request. -/
def buildPayload (newPrefs : Fields) : Payload :=
  (newPrefs.map Prod.fst).foldl (processKey newPrefs) []

/-! ## The remote document store

The store is an external collaborator (Firestore).  Its model follows the
interface the hook relies on: `updateDoc` writes each dotted field path of the
payload into the document, an atomic increment adding its operand to the
numeric field it addresses (a missing or non-numeric field counts as zero);
`setDoc(..., {merge: true})` on a document that does not exist creates it with
the data given. -/

/-- Segments of a dotted field path, on characters. -/
def splitDots : List Char → List (List Char)
  | [] => [[]]
  | c :: cs =>
    if c = '.' then [] :: splitDots cs
    else
      match splitDots cs with
      | [] => [[c]]
      | seg :: rest => (c :: seg) :: rest

/-- Segments of a dotted field path. -/
def pathSegments (path : String) : List String :=
  (splitDots path.data).map String.mk

/-- The store applies one instruction to the current value of a field; `none`
when the store rejects the instruction (an increment whose operand is not a
number). -/
def applyInstr (current : JsVal) : Instr → Option JsVal
  | Instr.lit v => some v
  | Instr.increment (JsVal.num n) =>
    match current with
    | JsVal.num c => some (JsVal.num (c + n))
    | _ => some (JsVal.num n)
  | Instr.increment _ => none

/-- The store writes an instruction at a field path below a value; a value on
the way that is not a map is replaced by a map. -/
def writeAt (i : Instr) : List String → JsVal → Option JsVal
  | [], v => applyInstr v i
  | seg :: rest, v =>
    let fs : Fields := match v with
      | JsVal.obj fs => fs
      | _ => []
    match writeAt i rest (getProp fs seg) with
    | some w => some (JsVal.obj (assocSet fs seg w))
    | none => none

/-- The document after `updateDoc(ref, payload)`, entries applied in order;
`none` when the store rejects the payload. -/
def applyPayload : JsVal → Payload → Option JsVal
  | d, [] => some d
  | d, (path, i) :: rest =>
    match writeAt i (pathSegments path) d with
    | some d1 => applyPayload d1 rest
    | none => none

/-- A store operation issued by the client. -/
inductive StoreOp where
  | getDoc : StoreOp
  | updateDoc (payload : Payload) : StoreOp
  | setDocMerge (data : JsVal) : StoreOp
  | setDoc (data : JsVal) : StoreOp

/-- The store as seen through the user's document reference: the document
(`none` when it does not exist) and the operations issued so far, oldest
first. -/
structure Store where
  doc : Option JsVal
  log : List StoreOp

/-- How the awaited store calls of one `updatePreferences` run end: `none` when
the promise fulfils, `some msg` when it rejects with an error of message `msg`;
`invalidPayload` is the message of the error with which `updateDoc` rejects a
payload the store cannot apply. -/
structure Faults where
  getDoc : Option String
  updateDoc : Option String
  setDoc : Option String
  invalidPayload : String

/-- No store call fails. -/
def Faults.none : Faults :=
  { getDoc := Option.none, updateDoc := Option.none, setDoc := Option.none,
    invalidPayload := "invalid-argument" }

/-- The result objects `{ ok }` and `{ ok, reason }`. -/
structure Result where
  ok : Bool
  reason : Option String
  deriving DecidableEq, Repr

/-- The result of the `catch` block (line 270): `err.message || "failed_to_update"`. -/
def caught (message : String) : Result :=
  { ok := false, reason := some (if message = "" then "failed_to_update" else message) }

/-- The function `updatePreferences` (lines 217-274).  `userDocRef` is the
username behind the document reference, `none` when nobody is logged in. -/
def updatePreferences (userDocRef : Option String) (faults : Faults)
    (newPrefs : Fields) (store : Store) : Result × Store :=
  match userDocRef with
  | Option.none => ({ ok := false, reason := some "no_user" }, store)
  | some username =>
    let payload := buildPayload newPrefs
    let store1 : Store := { store with log := store.log ++ [StoreOp.getDoc] }
    match faults.getDoc with
    | some msg => (caught msg, store1)
    | Option.none =>
      match store1.doc with
      | some d =>
        let store2 : Store := { store1 with log := store1.log ++ [StoreOp.updateDoc payload] }
        match faults.updateDoc with
        | some msg => (caught msg, store2)
        | Option.none =>
          match applyPayload d payload with
          | some d1 => ({ ok := true, reason := Option.none }, { store2 with doc := some d1 })
          | Option.none => (caught faults.invalidPayload, store2)
      | Option.none =>
        let data := JsVal.obj
          [("username", JsVal.str username), ("username_lc", JsVal.str username),
           ("preferences", JsVal.obj newPrefs)]
        let store2 : Store := { store1 with log := store1.log ++ [StoreOp.setDocMerge data] }
        match faults.setDoc with
        | some msg => (caught msg, store2)
        | Option.none => ({ ok := true, reason := Option.none }, { store2 with doc := some data })

/-- Read of a dotted field path in a stored document. -/
def readAt : List String → JsVal → JsVal
  | [], v => v
  | seg :: rest, v => readAt rest (v.get seg)

/-- The stored value at a dotted field path, `undefined` when the document does
not exist. -/
def Store.read (store : Store) (path : String) : JsVal :=
  match store.doc with
  | some d => readAt (pathSegments path) d
  | Option.none => JsVal.undef

/-! ## Action guard (lines 276-296) -/

/-- The guard: the `CLIENT_ACTION_GUARD` map from action key to the time of the
last accepted call, and the pending `setTimeout` callbacks, each with its due
time and the key it deletes. -/
structure GuardState where
  table : List (String × Int)
  timers : List (Int × String)

/-- The guard created by `new Map()`, with no timer pending. -/
def GuardState.empty : GuardState := { table := [], timers := [] }

/-- The call `Map.delete`. -/
def mapDelete (table : List (String × Int)) (key : String) : List (String × Int) :=
  table.filter (fun e => !decide (e.1 = key))

/-- The function `clientActionGuard(key, ms)` called when `Date.now()` is `now`
(lines 278-285).  `get(key) || 0` is 0 for a missing key and for a stored 0;
a timer with a negative delay is due at once. -/
def clientActionGuard (key : String) (ms : Int) (now : Int) (g : GuardState) :
    Bool × GuardState :=
  let last := (assocGet g.table key).getD 0
  if now - last < ms then (false, g)
  else
    (true,
      { table := assocSet g.table key now,
        timers := g.timers ++ [(now + max (ms + 50) 0, key)] })

/-- The event loop runs the timer callbacks that are due at time `now`: each
deletes its key from the map. -/
def fireDue (now : Int) (g : GuardState) : GuardState :=
  { table := (g.timers.filter (fun tm => decide (tm.1 ≤ now))).foldl
      (fun t tm => mapDelete t tm.2) g.table,
    timers := g.timers.filter (fun tm => !decide (tm.1 ≤ now)) }

/-- One step of the guard's step model: the timers due by `now` run, then
`clientActionGuard(key, ms)` is called at `now`. -/
def guardStep (now : Int) (key : String) (ms : Int) (g : GuardState) : Bool × GuardState :=
  clientActionGuard key ms now (fireDue now g)

/-- A call of the step model: timestamp, action key, cooldown. -/
structure GuardCall where
  now : Int
  key : String
  ms : Int

/-- A run of the step model: the answers of the calls, in order, and the final
guard. -/
def runGuard : List GuardCall → GuardState → List Bool × GuardState
  | [], g => ([], g)
  | c :: rest, g =>
    let r := guardStep c.now c.key c.ms g
    let rs := runGuard rest r.2
    (r.1 :: rs.1, rs.2)

/-- The function `guardedUpdate(actionKey, newPrefs, guardMs)` (lines 288-296)
called when `Date.now()` is `now`. -/
def guardedUpdate (userDocRef : Option String) (faults : Faults) (actionKey : String)
    (newPrefs : Fields) (guardMs : Int) (now : Int) (g : GuardState) (store : Store) :
    Result × GuardState × Store :=
  let r := clientActionGuard actionKey guardMs now g
  if !r.1 then
    ({ ok := false, reason := some "duplicate_ignored" }, r.2, store)
  else
    let u := updatePreferences userDocRef faults newPrefs store
    (u.1, r.2, u.2)

/-- One step of the step model for `guardedUpdate`: the timers due by `now`
run, then `guardedUpdate(actionKey, newPrefs, guardMs)` is called at `now`. -/
def guardedUpdateStep (userDocRef : Option String) (faults : Faults) (actionKey : String)
    (newPrefs : Fields) (guardMs : Int) (now : Int) (g : GuardState) (store : Store) :
    Result × GuardState × Store :=
  guardedUpdate userDocRef faults actionKey newPrefs guardMs now (fireDue now g) store

/-- A call of `guardedUpdate` in the step model: timestamp, action key, update
request, cooldown, and how the store calls of that run end. -/
structure UpdateCall where
  now : Int
  key : String
  newPrefs : Fields
  ms : Int
  faults : Faults

/-- A run of `guardedUpdate` calls in the step model: the results of the calls,
in order, the final guard and the final store. -/
def runGuardedUpdates (userDocRef : Option String) :
    List UpdateCall → GuardState → Store → List Result × GuardState × Store
  | [], g, store => ([], g, store)
  | c :: rest, g, store =>
    let r := guardedUpdateStep userDocRef c.faults c.key c.newPrefs c.ms c.now g store
    let rs := runGuardedUpdates userDocRef rest r.2.1 r.2.2
    (r.1 :: rs.1, rs.2.1, rs.2.2)

/-! ## `incrementDailyAction` (MainContent.js, lines 340-388)

The cached preferences are read at the types the function uses them at: counts
objects map action kinds to integers, the history maps date keys to counts
objects, and `stats` is an arbitrary object. -/

/-- A counts object such as `dailyLog`: action kind to count. -/
abbrev Counts := List (String × Int)

/-- The read `counts[k] || 0`. -/
def countOf (counts : Counts) (k : String) : Int := (assocGet counts k).getD 0

/-- Object spread `{ ...a, ...b }`. -/
def spread {α : Type} (a b : List (String × α)) : List (String × α) :=
  b.foldl (fun acc kv => assocSet acc kv.1 kv.2) a

/-- The part of the cached preferences that `incrementDailyAction` reads:
`preferences.dailyHistory || {}`, `preferences.dailyLog || {}` and
`preferences.stats || {}`. -/
structure Prefs where
  dailyHistory : List (String × Counts)
  dailyLog : Counts
  stats : Fields

/-- The counts merged for today (lines 342-350). -/
def todayCountsOf (preferences : Prefs) (todayKey : String) (delta : Counts) : Counts :=
  let history := preferences.dailyHistory
  let historyToday := spread [] ((assocGet history todayKey).getD [])
  let inProgress := preferences.dailyLog
  let todayCounts := spread historyToday inProgress
  (delta.map Prod.fst).foldl
    (fun tc k => assocSet tc k (countOf tc k + countOf delta k)) todayCounts

/-- The value `Math.round(count / 3 * 100)` for an integer count: the quotient
is a multiple of 1/3, and `Math.round` rounds halves up, so the result is the
floor of `count * 100 / 3 + 1/2`. -/
def roundPercent (count : Int) : Int := (200 * count + 3) / 6

/-- A counts object as a JavaScript value. -/
def countsToJs (counts : Counts) : JsVal :=
  JsVal.obj (counts.map (fun kv => (kv.1, JsVal.num kv.2)))

/-- The stats object written by `incrementDailyAction` (lines 354-373). -/
def newStatsOf (preferences : Prefs) (todayCounts delta : Counts) : Fields :=
  let hunger := min 100 (roundPercent (countOf todayCounts "feed"))
  let happiness := min 100 (roundPercent (countOf todayCounts "play"))
  let energy := min 100 (50 + countOf todayCounts "interact" * 10 + countOf todayCounts "rest" * 5)
  let love := min 100 (countOf todayCounts "groom" * 15)
  let prevXp : Int := match getProp preferences.stats "xp" with
    | JsVal.num x => x
    | _ => 0
  let actionsPerformed := (delta.map Prod.snd).foldl (fun a b => a + b) 0
  let xpGain := max 0 (actionsPerformed * 10)
  let newXp := min 100 (prevXp + xpGain)
  spread preferences.stats
    [("hunger", JsVal.num hunger), ("happiness", JsVal.num happiness),
     ("energy", JsVal.num energy), ("love", JsVal.num love), ("xp", JsVal.num newXp)]

/-- The update request that `incrementDailyAction(delta, meta)` hands to
`updatePreferences` (lines 375-380); `todayKey` is
`new Date().toISOString().slice(0, 10)`. -/
def dailyActionRequest (preferences : Prefs) (todayKey : String) (delta : Counts)
    (meta : Fields) : Fields :=
  let todayCounts := todayCountsOf preferences todayKey delta
  let updatedHistory := spread preferences.dailyHistory [(todayKey, spread [] todayCounts)]
  let newStats := newStatsOf preferences todayCounts delta
  spread
    [("dailyHistory", JsVal.obj (updatedHistory.map (fun kv => (kv.1, countsToJs kv.2)))),
     ("dailyLog", countsToJs todayCounts),
     ("stats", JsVal.obj newStats)]
    meta

/-- The function `incrementDailyAction(delta, meta)`: the request is handed to
`updatePreferences`, whose result is dropped (lines 382-383). -/
def incrementDailyAction (userDocRef : Option String) (faults : Faults)
    (preferences : Prefs) (todayKey : String) (delta : Counts) (meta : Fields)
    (store : Store) : Result × Store :=
  let u := updatePreferences userDocRef faults
    (dailyActionRequest preferences todayKey delta meta) store
  ({ ok := true, reason := Option.none }, u.2)

/-- The metadata that the call sites of `incrementDailyAction` pass: the feed
drop handler (lines 194-197) passes `{ lastFed, lastFedAt }`, the game handlers
(lines 242-245 and 474-477) pass `{ lastPlayedGame, lastPlayedAt }`.  The food
is a string read from the drag event, the time stamps are
`new Date().toISOString()`, and the game name is whatever the game reports. -/
inductive ActionMeta where
  | fed (food lastFedAt : String) : ActionMeta
  | played (gameName : JsVal) (lastPlayedAt : String) : ActionMeta

/-- The `meta` object of a call site. -/
def ActionMeta.fields : ActionMeta → Fields
  | ActionMeta.fed food lastFedAt =>
    [("lastFed", JsVal.str food), ("lastFedAt", JsVal.str lastFedAt)]
  | ActionMeta.played gameName lastPlayedAt =>
    [("lastPlayedGame", gameName), ("lastPlayedAt", JsVal.str lastPlayedAt)]

/-! ## Invariants -/

/-- The key has no entry, or a timer that will delete it is pending and due by `d`. -/
def PurgePending (key : String) (d : Int) (g : GuardState) : Prop :=
  assocGet g.table key = none ∨ ∃ due, (due, key) ∈ g.timers ∧ due ≤ d

/-! ## Sample inputs -/

/-- The request `{ dailyLog: { feed: { __op: "inc", n: N } } }`. -/
def feedRequest (n : Int) : Fields :=
  [("dailyLog", JsVal.obj [("feed", incTag n)])]

/-- A stored document of user `bob` whose `preferences.dailyLog.feed` is `v`. -/
def feedDoc (v : Int) : JsVal :=
  JsVal.obj
    [("username", JsVal.str "bob"), ("username_lc", JsVal.str "bob"),
     ("preferences",
       JsVal.obj [("dailyLog", JsVal.obj [("feed", JsVal.num v)]), ("dailyHistory", JsVal.obj [])])]

/-- The store holding `feedDoc v`, nothing issued yet. -/
def feedStore (v : Int) : Store := { doc := some (feedDoc v), log := [] }

/-- The store in which the user's document does not exist. -/
def emptyStore : Store := { doc := Option.none, log := [] }

/-- The store after the increment-only requests `feedRequest n`, one
`updatePreferences` call for each `n` of the list, in order. -/
def applyFeedIncrements (ns : List Int) (store : Store) : Store :=
  ns.foldl (fun st n => (updatePreferences (some "bob") Faults.none (feedRequest n) st).2) store

/-- The cached preferences after a push of `feedDoc v`. -/
def feedCache (v : Int) : Prefs :=
  { dailyHistory := [], dailyLog := [("feed", v)], stats := [] }

/-! ## Stats derivation (LeftSidebar.js lines 19-81, MainContent.js lines 324-333) -/

/-- The counts object returned by `getTodayCounts`: the five action kinds. -/
structure DayCounts where
  feed : Int
  play : Int
  groom : Int
  rest : Int
  interact : Int
  deriving DecidableEq, Repr

/-- The expression `a ?? b ?? 0` on two reads of a counts object. -/
def nullishCount (a b : Option Int) : Int :=
  match a with
  | some x => x
  | Option.none =>
    match b with
    | some y => y
    | Option.none => 0

/-- The function `getTodayCounts` of LeftSidebar (lines 26-38); `todayKey` is
`new Date().toISOString().slice(0, 10)`. -/
def LeftSidebar.getTodayCounts (preferences : Prefs) (todayKey : String) : DayCounts :=
  let hist := preferences.dailyHistory
  let todayCounts := preferences.dailyLog
  let historyToday := (assocGet hist todayKey).getD []
  { feed := nullishCount (assocGet todayCounts "feed") (assocGet historyToday "feed"),
    play := nullishCount (assocGet todayCounts "play") (assocGet historyToday "play"),
    groom := nullishCount (assocGet todayCounts "groom") (assocGet historyToday "groom"),
    rest := nullishCount (assocGet todayCounts "rest") (assocGet historyToday "rest"),
    interact :=
      nullishCount (assocGet todayCounts "interact") (assocGet historyToday "interact") }

/-- The display stats `{ hunger, happiness, energy, love, xp }`. -/
structure Stats where
  hunger : Int
  happiness : Int
  energy : Int
  love : Int
  xp : Int
  deriving DecidableEq, Repr

/-- The function `computeStats` of LeftSidebar (lines 45-52), with
`TARGETS = { feed: 3, play: 3 }`; `Object.values(counts)` lists the five counts
in the order `getTodayCounts` writes them. -/
def LeftSidebar.computeStats (counts : DayCounts) : Stats :=
  { hunger := min 100 (roundPercent counts.feed),
    happiness := min 100 (roundPercent counts.play),
    energy := min 100 (50 + counts.interact * 10 + counts.rest * 5),
    love := min 100 (counts.interact * 15),
    xp := min 100
      ((0 + counts.feed + counts.play + counts.groom + counts.rest + counts.interact) * 10) }

/-- The value `Math.round(success / 30 * 100)` for an integer count: the
quotient is a multiple of 1/3, so the result is the floor of
`success * 100 / 30 + 1/2`. -/
def roundOfThirty (success : Int) : Int := (200 * success + 30) / 60

/-- The day inspected at offset `i` by `computeStreak` (lines 70-73), `dayKey i`
being the key computed for that offset (line 68). -/
def LeftSidebar.streakDay (preferences : Prefs) (dayKey : Nat → String) (i : Nat) : Counts :=
  if i = 0 then
    [("feed", countOf preferences.dailyLog "feed"), ("play", countOf preferences.dailyLog "play")]
  else
    (assocGet preferences.dailyHistory (dayKey i)).getD []

/-- The stats object of MainContent's `computeStats`, with its `streak` flag. -/
structure MainStats where
  hunger : Int
  happiness : Int
  energy : Int
  love : Int
  xp : Int
  streak : Int
  deriving DecidableEq, Repr

/-- The function `computeStats` of MainContent (lines 324-333). -/
def MainContent.computeStats (log : Counts) : MainStats :=
  { hunger := min 100 (countOf log "feed" * 20),
    happiness := min 100 (countOf log "play" * 25),
    energy := max 0 (min 100
      (100 - countOf log "play" * 15 + countOf log "feed" * 10 + countOf log "rest" * 20)),
    love := min 100 (countOf log "groom" * 15),
    xp := min 100
      ((countOf log "feed" + countOf log "play" + countOf log "groom" + countOf log "rest") * 10),
    streak := if countOf log "feed" ≥ 3 ∧ countOf log "play" ≥ 4 then 1 else 0 }

/-! ### The formulas in the spec's words -/

/-- Rounding to the nearest integer, halves up (`Math.round`), on the rationals. -/
def roundHalfUp (x : ℚ) : Int := ⌊x + 1 / 2⌋

/-- The spec's `round(count / target * 100)` clamped at 100, with target 3. -/
def specPercent (count : Int) : Int := min 100 (roundHalfUp ((count : ℚ) / 3 * 100))

/-- The spec's criterion for the day at offset `i`: today's counts come from
`dailyLog`, the counts of every other day from `dailyHistory` at that day's
key, a missing day or count being zero; the day succeeds when feed and play
both reach 3. -/
def specDayMeetsTargets (preferences : Prefs) (dayKey : Nat → String) (i : Nat) : Bool :=
  let counts : Counts :=
    if i = 0 then preferences.dailyLog else (assocGet preferences.dailyHistory (dayKey i)).getD []
  decide (3 ≤ countOf counts "feed") && decide (3 ≤ countOf counts "play")

/-- The spec's number of successful days among the offsets 0..29. -/
def specSuccessDays (preferences : Prefs) (dayKey : Nat → String) : Nat :=
  ((List.range 30).filter (specDayMeetsTargets preferences dayKey)).length

/-- A stat value lies in the closed range [0, 100]. -/
def inStatRange (x : Int) : Prop := 0 ≤ x ∧ x ≤ 100

instance (x : Int) : Decidable (inStatRange x) := by
  unfold inStatRange
  exact inferInstance

/-- Every count of a counts object is non-negative. -/
def countsNonneg (counts : Counts) : Prop := ∀ kv ∈ counts, 0 ≤ kv.2

instance (counts : Counts) : Decidable (countsNonneg counts) := by
  unfold countsNonneg
  exact inferInstance
/-! ## Day keys (`new Date().toISOString().slice(0, 10)`)

`Date` is a built-in: an instant is a number of milliseconds since the epoch,
and `toISOString` prints its UTC calendar date and time in the proleptic
Gregorian calendar. -/

/-- A calendar date. -/
structure CivilDate where
  year : Int
  month : Int
  day : Int
  deriving DecidableEq, Repr

/-- The calendar date of a day number counted from 1970-01-01: 400-year,
100-year, 4-year and 1-year cycles of the calendar year starting on 1 March,
then month and day within that year. -/
def civilFromDays (z : Int) : CivilDate :=
  let z1 := z + 719468
  let era := z1 / 146097
  let d1 := z1 - era * 146097
  let n100 := min (d1 / 36524) 3
  let d2 := d1 - n100 * 36524
  let n4 := d2 / 1461
  let d3 := d2 - n4 * 1461
  let n1 := min (d3 / 365) 3
  let doy := d3 - n1 * 365
  let mp := (5 * doy + 2) / 153
  let day := doy - (153 * mp + 2) / 5 + 1
  let month := if mp < 10 then mp + 3 else mp - 9
  let y := era * 400 + n100 * 100 + n4 * 4 + n1
  { year := if month ≤ 2 then y + 1 else y, month := month, day := day }

/-- The day number of a calendar date. -/
def daysFromCivil (c : CivilDate) : Int :=
  let y := if c.month ≤ 2 then c.year - 1 else c.year
  let mp := if c.month ≤ 2 then c.month + 9 else c.month - 3
  let era := y / 400
  let yoe := y - era * 400
  let doy := (153 * mp + 2) / 5 + c.day - 1
  era * 146097 + yoe * 365 + yoe / 4 - yoe / 100 + doy - 719468

/-- The character of a decimal digit. -/
def digitChar : Nat → Char
  | 0 => '0'
  | 1 => '1'
  | 2 => '2'
  | 3 => '3'
  | 4 => '4'
  | 5 => '5'
  | 6 => '6'
  | 7 => '7'
  | 8 => '8'
  | _ => '9'

/-- Two decimal digits. -/
def pad2 (n : Int) : List Char :=
  [digitChar (n / 10 % 10).toNat, digitChar (n % 10).toNat]

/-- Four decimal digits. -/
def pad4 (n : Int) : List Char :=
  [digitChar (n / 1000 % 10).toNat, digitChar (n / 100 % 10).toNat,
   digitChar (n / 10 % 10).toNat, digitChar (n % 10).toNat]

/-- Six decimal digits. -/
def pad6 (n : Int) : List Char :=
  [digitChar (n / 100000 % 10).toNat, digitChar (n / 10000 % 10).toNat,
   digitChar (n / 1000 % 10).toNat, digitChar (n / 100 % 10).toNat,
   digitChar (n / 10 % 10).toNat, digitChar (n % 10).toNat]

/-- The first ten characters of `toISOString()` for an instant on the day
number `z`: `YYYY-MM-DD` for the years 0 to 9999, and the start `±YYYYYY-MM` of
the expanded format for the other years. -/
def isoDateKey (z : Int) : String :=
  let c := civilFromDays z
  if 0 ≤ c.year ∧ c.year ≤ 9999 then
    String.mk (pad4 c.year ++ '-' :: pad2 c.month ++ '-' :: pad2 c.day)
  else
    String.mk ((if c.year < 0 then '-' else '+') :: pad6 (if c.year < 0 then -c.year else c.year)
      ++ '-' :: pad2 c.month)

/-- The day key `new Date().toISOString().slice(0, 10)` computed by
`incrementDailyAction`, `getTodayCounts` and `computeStreak` when `Date.now()`
is `now` (milliseconds). -/
def todayKey (now : Int) : String := isoDateKey (now / 86400000)

/-- The spec's day key: the caller's local calendar date, formatted
`YYYY-MM-DD`, for a caller whose local time is `offsetMinutes` ahead of UTC. -/
def localDateKey (now offsetMinutes : Int) : String :=
  isoDateKey ((now + offsetMinutes * 60000) / 86400000)

/-! ## Local time (`getDate`, `setDate`)

`getDate` and `setDate` are built-ins that work on local time.  The time zone
is the host's; all times are in milliseconds.  The instants are those of the
clock and of the 30 days before it, far inside the range of `Date`, where
`TimeClip` changes nothing. -/

/-- The local time zone: `utcOffset t` is the offset of local time from UTC at
the instant `t` (`LocalTZA(t, true)`), and `localOffset tl` the offset in force
at the local time value `tl` (`LocalTZA(tl, false)`), a local time that a
transition skips or repeats being read with the offset before the transition. -/
structure TimeZone where
  utcOffset : Int → Int
  localOffset : Int → Int

/-- A zone at a constant offset from UTC, `offsetMinutes` ahead. -/
def fixedZone (offsetMinutes : Int) : TimeZone :=
  { utcOffset := fun _ => offsetMinutes * 60000,
    localOffset := fun _ => offsetMinutes * 60000 }

/-- The zone Europe/Berlin around 2025: UTC+1, and UTC+2 from 2025-03-30T01:00Z
(local 02:00 becomes 03:00) until 2025-10-26T01:00Z (local 03:00 becomes
02:00). -/
def europeBerlin2025 : TimeZone :=
  { utcOffset := fun t =>
      if 1743296400000 ≤ t ∧ t < 1761440400000 then 7200000 else 3600000,
    localOffset := fun tl =>
      if 1743303600000 ≤ tl ∧ tl < 1761447600000 then 7200000 else 3600000 }

/-- The local time value `LocalTime(t)` of the instant `t`. -/
def localTime (tz : TimeZone) (t : Int) : Int := t + tz.utcOffset t

/-- The instant `UTC(tl)` of the local time value `tl`. -/
def utcTime (tz : TimeZone) (tl : Int) : Int := tl - tz.localOffset tl

/-- The call `getDate()` on a date holding the instant `t`: the day of the
month in local time. -/
def getDate (tz : TimeZone) (t : Int) : Int :=
  (civilFromDays (localTime tz t / 86400000)).day

/-- The call `setDate(date)` on a date holding the instant `t`, as the new
instant: the day of the month of the local time is replaced by `date` (a value
outside the month runs over into the neighbouring months, `MakeDay`), the
local time within the day is kept, and the local time value is read back as an
instant. -/
def setDate (tz : TimeZone) (t : Int) (date : Int) : Int :=
  let tl := localTime tz t
  let c := civilFromDays (tl / 86400000)
  let day := daysFromCivil { c with day := date }
  utcTime tz (day * 86400000 + tl % 86400000)

/-! ## `computeStreak` (LeftSidebar.js lines 59-81) -/

/-- The key computed for the offset `i` when `new Date()` is the instant `now`
(lines 66-68): `d = new Date(now)`, `d.setDate(now.getDate() - i)`,
`d.toISOString().slice(0, 10)`. -/
def LeftSidebar.streakKey (tz : TimeZone) (now : Int) (i : Nat) : String :=
  todayKey (setDate tz now (getDate tz now - (i : Int)))

/-- The function `computeStreak` of LeftSidebar (lines 59-81), in the time zone
`tz` when `new Date()` is the instant `now`, with `TARGETS = { feed: 3, play: 3 }`. -/
def LeftSidebar.computeStreak (tz : TimeZone) (now : Int) (preferences : Prefs) : Int :=
  let success := (List.range 30).foldl
    (fun success i =>
      let day := LeftSidebar.streakDay preferences (LeftSidebar.streakKey tz now) i
      if countOf day "feed" ≥ 3 ∧ countOf day "play" ≥ 3 then success + 1 else success)
    (0 : Int)
  roundOfThirty success

/-- The spec's key of the day at offset `i` from today: the day key of the day
`i` days before the day of `now`, the days being those of the day keys
(`todayKey`). -/
def specTrailingKey (now : Int) (i : Nat) : String :=
  isoDateKey (now / 86400000 - (i : Int))

/-! ## `createUser` (usePreferences.js lines 38-71) -/

/-- The `preferences` object literal of a new user document (lines 51-59). -/
def defaultPreferences : Fields :=
  [("dailyLog",
      JsVal.obj [("feed", JsVal.num 0), ("play", JsVal.num 0), ("groom", JsVal.num 0),
        ("rest", JsVal.num 0), ("interact", JsVal.num 0)]),
   ("dailyHistory", JsVal.obj []),
   ("stats",
      JsVal.obj [("hunger", JsVal.num 0), ("happiness", JsVal.num 0), ("energy", JsVal.num 100),
        ("love", JsVal.num 0), ("xp", JsVal.num 0), ("streakPercent", JsVal.num 0)]),
   ("meshes", JsVal.arr []),
   ("currentScene", JsVal.null),
   ("currentModel", JsVal.null),
   ("selectedPet", JsVal.null)]

/-- The object `userDoc` (lines 45-61).  `trimmedUsername` is `username.trim()`,
`id` is `normalize(username)`, `trimmedPetName` is `(petName || "").trim()`,
`hashed` is the value of `bcrypt.hash(secretKey, SALT_ROUNDS)` and `createdAt`
is `new Date().toISOString()`. -/
def createUserDoc (trimmedUsername id trimmedPetName hashed createdAt : String)
    (extra : Fields) : Fields :=
  spread
    [("username", JsVal.str trimmedUsername), ("username_lc", JsVal.str id),
     ("petName", JsVal.str trimmedPetName), ("secretKeyHash", JsVal.str hashed),
     ("createdAt", JsVal.str createdAt), ("preferences", JsVal.obj defaultPreferences)]
    extra

/-- The statement `delete o[key]`. -/
def deleteProp (fs : Fields) (key : String) : Fields :=
  fs.filter (fun e => !decide (e.1 = key))

/-- The result objects of `createUser`: `{ ok, reason }` and `{ ok, data }`. -/
structure CreateResult where
  ok : Bool
  reason : Option String
  data : Option Fields

/-- The function `createUser` (lines 38-71).  `hashed` is how
`bcrypt.hash(secretKey, SALT_ROUNDS)` ends (`Except.error msg` when it rejects
with an error of message `msg`), `setDocFault` how `setDoc` ends; the store is
the one of the document `users/id`, which `setDoc` replaces. -/
def createUser (trimmedUsername id trimmedPetName : String) (hashed : Except String String)
    (createdAt : String) (extra : Fields) (setDocFault : Option String) (store : Store) :
    CreateResult × Store :=
  if id = "" then
    ({ ok := false, reason := some "username_required", data := Option.none }, store)
  else
    match hashed with
    | Except.error msg =>
      ({ ok := false, reason := some (if msg = "" then "failed_to_create" else msg),
         data := Option.none }, store)
    | Except.ok hash =>
      let userDoc := createUserDoc trimmedUsername id trimmedPetName hash createdAt extra
      let store1 : Store :=
        { store with log := store.log ++ [StoreOp.setDoc (JsVal.obj userDoc)] }
      match setDocFault with
      | some msg =>
        ({ ok := false, reason := some (if msg = "" then "failed_to_create" else msg),
           data := Option.none }, store1)
      | Option.none =>
        ({ ok := true, reason := Option.none, data := some (deleteProp userDoc "secretKeyHash") },
          { store1 with doc := some (JsVal.obj userDoc) })

/-- The `extra` argument passed by the sign-up flow (PetzyLanding.js lines
271-276) for the model `finalModel`. -/
def signUpExtra (finalModel : JsVal) : Fields :=
  [("preferences",
      JsVal.obj [("currentModel", finalModel), ("selectedPet", finalModel.get "id")])]

/-! ## The hook state and the subscription handlers (usePreferences.js lines 122-202) -/

/-- The safe user info `{ username, petName }` kept by the hook. -/
structure UserInfo where
  username : JsVal
  petName : JsVal

/-- The state of the `usePreferences` hook (`preferences`, `loading`, `user`)
and the two web storages its push handler writes; a stored value `v` stands
for the text `JSON.stringify(v)`. -/
structure HookState where
  preferences : JsVal
  loading : Bool
  user : Option UserInfo
  sessionStorage : List (String × JsVal)
  localStorage : List (String × JsVal)

/-- Whether `sessionStorage.setItem` and `localStorage.setItem` throw. -/
structure StorageFaults where
  sessionSetItem : Bool
  localSetItem : Bool

/-- The body of the `try` block of the push handler (lines 176-183) on the
storages; a throwing `setItem` ends the block. -/
def persistCurrentModel (sf : StorageFaults) (prefs : JsVal) (s : HookState) : HookState :=
  if prefs.truthy && (prefs.get "currentModel").truthy then
    if sf.sessionSetItem then s
    else
      let model := prefs.get "currentModel"
      let s1 : HookState :=
        { s with sessionStorage := assocSet s.sessionStorage "petzy_selected_model" model }
      if sf.localSetItem then s1
      else
        { s1 with localStorage := assocSet s1.localStorage "petzy_selected_model_backup" model }
  else if prefs.truthy && (prefs.get "selectedPet").truthy then
    if sf.sessionSetItem then s
    else
      let idOnly := JsVal.obj [("id", prefs.get "selectedPet")]
      { s with sessionStorage := assocSet s.sessionStorage "petzy_selected_model" idOnly }
  else s

/-- The `next` handler of `onSnapshot` (lines 161-194).  `username` is the
memoized username of the hook, `snap` is `none` when `snap.exists()` is false
and the fields of `snap.data()` otherwise. -/
def onSnapshotNext (username : Option String) (sf : StorageFaults) (snap : Option Fields)
    (s : HookState) : HookState :=
  match snap with
  | some data =>
    let safeUser :=
      if (getProp data "secretKeyHash").truthy then deleteProp data "secretKeyHash" else data
    let usernameVal : JsVal := match username with
      | some u => JsVal.str u
      | Option.none => JsVal.null
    let user : UserInfo :=
      { username := (getProp safeUser "username").or usernameVal,
        petName := ((getProp safeUser "petName").or
          ((getProp safeUser "preferences").get "petName")).or JsVal.null }
    let prefs := (getProp data "preferences").or (JsVal.obj [])
    let s1 : HookState := { s with user := some user, preferences := prefs }
    let s2 := persistCurrentModel sf prefs s1
    { s2 with loading := false }
  | Option.none =>
    { s with preferences := JsVal.obj [], user := Option.none, loading := false }

/-- The error handler of `onSnapshot` (lines 195-198). -/
def onSnapshotError (s : HookState) : HookState :=
  { s with loading := false }

/-- The hook and the store it talks to. -/
structure World where
  hook : HookState
  store : Store

/-- A call of `updatePreferences` in the world of the hook: the function has
the document reference and the store in scope and calls none of the state
setters. -/
def World.updatePreferences (userDocRef : Option String) (faults : Faults) (newPrefs : Fields)
    (w : World) : Result × World :=
  let r := Petzy.updatePreferences userDocRef faults newPrefs w.store
  (r.1, { w with store := r.2 })

/-- A store operation that `updatePreferences` issued has failed. -/
def issuedOpFailed (userDocRef : Option String) (faults : Faults) (newPrefs : Fields)
    (store : Store) : Bool :=
  match userDocRef with
  | Option.none => false
  | some _ =>
    faults.getDoc.isSome ||
      (match store.doc with
        | some d => faults.updateDoc.isSome || (applyPayload d (buildPayload newPrefs)).isNone
        | Option.none => faults.setDoc.isSome)

/-- The reason codes of the spec's taxonomy. -/
def specReasonCodes : List String := ["no_identity", "store_unreachable", "unknown"]

/-! ## Sample inputs for the stats and the day keys -/

/-- The key of the day `i` days before 2025-01-31. -/
def sampleDayKey (i : Nat) : String := isoDateKey (20119 - (i : Int))

/-- Cached preferences in which the 15 days at the odd offsets 1, 3, ..., 29
meet both targets and today does not. -/
def streakSamplePrefs : Prefs :=
  { dailyHistory :=
      (List.range 15).map (fun j => (sampleDayKey (2 * j + 1), [("feed", 3), ("play", 3)])),
    dailyLog := [("feed", 1), ("play", 5)],
    stats := [] }

/-- Cached preferences with a stored xp of 20. -/
def statsSamplePrefs : Prefs :=
  { dailyHistory := [], dailyLog := [("feed", 1)], stats := [("xp", JsVal.num 20)] }

/-- The model object of the dog, as the sign-up flow passes it. -/
def dogModel : JsVal :=
  JsVal.obj [("id", JsVal.str "dog"), ("name", JsVal.str "Dog"),
    ("file", JsVal.str "/models/mouth.glb")]

/-- A hook state holding a stale cache. -/
def staleHook : HookState :=
  { preferences := JsVal.obj [("dailyLog", JsVal.obj [("feed", JsVal.num 9)]),
      ("lastAction", JsVal.str "old")],
    loading := true,
    user := Option.none,
    sessionStorage := [],
    localStorage := [] }

/-- The fields of a pushed document whose `preferences.dailyLog.feed` is 2. -/
def pushedDoc : Fields :=
  [("username", JsVal.str "bob"), ("secretKeyHash", JsVal.str "h"),
   ("preferences", JsVal.obj [("dailyLog", JsVal.obj [("feed", JsVal.num 2)])])]

/-- The store calls fail because the client is offline. -/
def offlineFaults : Faults :=
  { getDoc := some "Failed to get document because the client is offline.",
    updateDoc := Option.none, setDoc := Option.none, invalidPayload := "invalid-argument" }


/-! ## `confirm` of PetModelSelectPage (lines 75-105) -/

/-- The state `confirm` acts on: the `saving` flag, the model handed to
`navigate` (`none` while `navigate` has not been called), and the hook with its
store; `sessionStorage` is the one of the hook state. -/
structure PageState where
  saving : Bool
  navigated : Option JsVal
  world : World

/-- The function `confirm` (lines 75-105).  `selected` is the selected model
(`null` when there is none), `modelAtIndex` is `models[index]`; a throwing
`sessionStorage.setItem` leaves the `try` block for `catch` and `finally`. -/
def PetModelSelectPage.confirm (userDocRef : Option String) (faults : Faults)
    (sf : StorageFaults) (selected modelAtIndex : JsVal) (p : PageState) : PageState :=
  let toSave := selected.or modelAtIndex
  if !toSave.truthy then p
  else if sf.sessionSetItem then { p with saving := false }
  else
    let session := assocSet p.world.hook.sessionStorage "petzy_selected_model" toSave
    let hook1 : HookState := { p.world.hook with sessionStorage := session }
    let r := World.updatePreferences userDocRef faults
      [("currentModel", toSave), ("selectedPet", toSave.get "id")] { p.world with hook := hook1 }
    { saving := false, navigated := some toSave, world := r.2 }

/-! ## `recordInteraction` (usePreferences.js lines 104-114, RightSidebar.js lines 315-321) -/

/-- The update that `recordInteraction` of the hook module passes to
`updatePreferences` (lines 107-111); `lastActionAt` is `new Date().toISOString()`. -/
def recordInteractionRequest (action lastActionAt : String) : Fields :=
  [("dailyLog", JsVal.obj [("interact", incTag 1)]),
   ("lastAction", JsVal.str action),
   ("lastActionAt", JsVal.str lastActionAt)]

/-- The function `recordInteraction` of the hook module: the call of
`updatePreferences` it makes. -/
def recordInteraction (userDocRef : Option String) (faults : Faults)
    (action lastActionAt : String) (store : Store) : Result × Store :=
  updatePreferences userDocRef faults (recordInteractionRequest action lastActionAt) store

/-- The update that RightSidebar's own `recordInteraction` passes to
`updatePreferences` (lines 317-319), built from the cached preferences. -/
def RightSidebar.recordInteractionRequest (preferences : Prefs) : Fields :=
  let updatedLog := spread [] preferences.dailyLog
  let updatedLog := assocSet updatedLog "interact" (countOf updatedLog "interact" + 1)
  [("dailyLog", countsToJs updatedLog)]

/-- The function `recordInteraction` of RightSidebar: the call of
`updatePreferences` it makes. -/
def RightSidebar.recordInteraction (userDocRef : Option String) (faults : Faults)
    (preferences : Prefs) (store : Store) : Result × Store :=
  updatePreferences userDocRef faults (RightSidebar.recordInteractionRequest preferences) store

/-! ## Comparing the stats derivations -/

/-- The five counts that `getTodayCounts` reads, taken from one counts object. -/
def dayCountsOf (counts : Counts) : DayCounts :=
  { feed := countOf counts "feed", play := countOf counts "play",
    groom := countOf counts "groom", rest := countOf counts "rest",
    interact := countOf counts "interact" }

/-- The spec's pure xp: `min(100, 10 * (feed + play + groom + rest + interact))`. -/
def specXp (counts : DayCounts) : Int :=
  min 100 (10 * (counts.feed + counts.play + counts.groom + counts.rest + counts.interact))

/-! ## Sample inputs for the last claims -/

/-- The storage is full: every `setItem` throws. -/
def quotaFaults : StorageFaults := { sessionSetItem := true, localSetItem := true }

/-- The storage accepts every write. -/
def noStorageFaults : StorageFaults := { sessionSetItem := false, localSetItem := false }

/-- A model-selection page in front of the store `feedStore 0`. -/
def samplePage : PageState :=
  { saving := false, navigated := Option.none,
    world := { hook := staleHook, store := feedStore 0 } }

/-- A stored document whose daily log is `{ feed: 5, interact: 1 }`. -/
def chatDoc : JsVal :=
  JsVal.obj
    [("username", JsVal.str "bob"),
     ("preferences",
       JsVal.obj [("dailyLog", JsVal.obj [("feed", JsVal.num 5), ("interact", JsVal.num 1)])])]

/-- The store holding `chatDoc`. -/
def chatStore : Store := { doc := some chatDoc, log := [] }

/-- A cache that has not yet seen the feed count 5: `{ feed: 2, interact: 1 }`. -/
def chatCache : Prefs :=
  { dailyHistory := [], dailyLog := [("feed", 2), ("interact", 1)], stats := [] }

/-- The cache on the morning of 2025-01-02: the history ends on 2025-01-01 and
`dailyLog` still holds the counts of that day. -/
def rolloverCache : Prefs :=
  { dailyHistory := [("2025-01-01", [("feed", 3), ("play", 2)])],
    dailyLog := [("feed", 3), ("play", 2)],
    stats := [] }

/-- A cache whose daily log `{ feed: 3, play: 3 }` meets both targets. -/
def targetDayCache : Prefs :=
  { dailyHistory := [], dailyLog := [("feed", 3), ("play", 3)], stats := [] }

/-- A cache whose daily log is `{ interact: 1 }`. -/
def interactCache : Prefs :=
  { dailyHistory := [], dailyLog := [("interact", 1)], stats := [] }

/-- The cache late on 2025-03-30 (UTC), after three feeds and three plays of
that day: `incrementDailyAction` has written the counts to `dailyLog` and to
the history under the key of the day. -/
def dstCache : Prefs :=
  { dailyHistory := [("2025-03-30", [("feed", 3), ("play", 3)])],
    dailyLog := [("feed", 3), ("play", 3)],
    stats := [] }

/-- The instant 2025-03-30T23:30:00Z, which is 01:30 on 2025-03-31 in Berlin. -/
def dstNow : Int := 1743377400000

/-- The instant 2025-01-31T12:00:00Z. -/
def sampleNow : Int := 20119 * 86400000 + 43200000

end Petzy

/-! # Verification -/

namespace Petzy

open JsVal

/-! ## Association lists -/

theorem assocGet_assocSet_self {α : Type} (l : List (String × α)) (k : String) (v : α) :
    assocGet (assocSet l k v) k = some v := by
  induction l with
  | nil => simp [assocSet, assocGet]
  | cons e rest ih =>
    obtain ⟨k1, w⟩ := e
    by_cases h : k1 = k
    · simp [assocSet, assocGet, h]
    · simp [assocSet, assocGet, h, ih]

theorem assocGet_assocSet_ne {α : Type} (l : List (String × α)) (k q : String) (v : α)
    (h : k ≠ q) : assocGet (assocSet l k v) q = assocGet l q := by
  induction l with
  | nil => simp [assocSet, assocGet, h]
  | cons e rest ih =>
    obtain ⟨k1, w⟩ := e
    by_cases h1 : k1 = k
    · subst h1
      simp [assocSet, assocGet, h]
    · by_cases h2 : k1 = q
      · subst h2
        simp [assocSet, assocGet, h1]
      · simp [assocSet, assocGet, h1, h2, ih]

theorem assocGet_mapDelete_self (t : List (String × Int)) (k : String) :
    assocGet (mapDelete t k) k = none := by
  induction t with
  | nil => simp [mapDelete, assocGet]
  | cons e rest ih =>
    obtain ⟨k1, w⟩ := e
    by_cases h : k1 = k
    · simpa [mapDelete, h] using ih
    · simpa [mapDelete, assocGet, h] using ih

theorem assocGet_mapDelete_ne (t : List (String × Int)) (k q : String) (h : k ≠ q) :
    assocGet (mapDelete t k) q = assocGet t q := by
  induction t with
  | nil => simp [mapDelete, assocGet]
  | cons e rest ih =>
    obtain ⟨k1, w⟩ := e
    by_cases h1 : k1 = k
    · subst h1
      simpa [mapDelete, assocGet, h] using ih
    · by_cases h2 : k1 = q
      · subst h2
        simp [mapDelete, assocGet, h1]
      · simpa [mapDelete, assocGet, h1, h2] using ih

/-! ## Action guard -/

theorem assocGet_foldl_mapDelete_of_not_mem (tms : List (Int × String)) (t : List (String × Int))
    (k : String) (h : ∀ tm ∈ tms, tm.2 ≠ k) :
    assocGet (tms.foldl (fun t tm => mapDelete t tm.2) t) k = assocGet t k := by
  induction tms generalizing t with
  | nil => rfl
  | cons tm rest ih =>
    simp only [List.foldl_cons]
    rw [ih _ (fun x hx => h x (List.mem_cons_of_mem _ hx))]
    exact assocGet_mapDelete_ne t tm.2 k (h tm (List.mem_cons_self _ _))

theorem assocGet_foldl_mapDelete_cases (tms : List (Int × String)) (t : List (String × Int))
    (k : String) :
    assocGet (tms.foldl (fun t tm => mapDelete t tm.2) t) k = none ∨
      assocGet (tms.foldl (fun t tm => mapDelete t tm.2) t) k = assocGet t k := by
  induction tms generalizing t with
  | nil => exact Or.inr rfl
  | cons tm rest ih =>
    simp only [List.foldl_cons]
    rcases ih (mapDelete t tm.2) with h | h
    · exact Or.inl h
    · by_cases hk : tm.2 = k
      · left
        rw [h, hk]
        exact assocGet_mapDelete_self t k
      · right
        rw [h]
        exact assocGet_mapDelete_ne t tm.2 k hk

/-- A key with no timer due by `now` keeps its entry when the due timers run. -/
theorem fireDue_table_of_no_due (now : Int) (g : GuardState) (k : String)
    (h : ∀ tm ∈ g.timers, tm.2 = k → ¬ tm.1 ≤ now) :
    assocGet (fireDue now g).table k = assocGet g.table k := by
  unfold fireDue
  apply assocGet_foldl_mapDelete_of_not_mem
  intro tm htm hk
  rw [List.mem_filter] at htm
  exact h tm htm.1 hk (by simpa using htm.2)

/-- Running the due timers either removes the entry of a key or leaves it as it was. -/
theorem fireDue_table_cases (now : Int) (g : GuardState) (k : String) :
    assocGet (fireDue now g).table k = none ∨
      assocGet (fireDue now g).table k = assocGet g.table k := by
  unfold fireDue
  exact assocGet_foldl_mapDelete_cases _ _ _

theorem fireDue_timers_subset (now : Int) (g : GuardState) :
    ∀ tm ∈ (fireDue now g).timers, tm ∈ g.timers := by
  intro tm htm
  unfold fireDue at htm
  exact (List.mem_filter.mp htm).1

theorem clientActionGuard_accept (key : String) (ms now : Int) (g : GuardState)
    (h : ¬ now - (assocGet g.table key).getD 0 < ms) :
    clientActionGuard key ms now g =
      (true, { table := assocSet g.table key now,
               timers := g.timers ++ [(now + max (ms + 50) 0, key)] }) := by
  simp [clientActionGuard, h]

theorem clientActionGuard_reject (key : String) (ms now : Int) (g : GuardState)
    (h : now - (assocGet g.table key).getD 0 < ms) :
    clientActionGuard key ms now g = (false, g) := by
  simp [clientActionGuard, h]

/-- The result `{ ok: false, reason: "duplicate_ignored" }`. -/
theorem guardedUpdate_of_reject (userDocRef : Option String) (faults : Faults) (actionKey : String)
    (newPrefs : Fields) (guardMs now : Int) (g : GuardState) (store : Store)
    (h : now - (assocGet g.table actionKey).getD 0 < guardMs) :
    guardedUpdate userDocRef faults actionKey newPrefs guardMs now g store =
      ({ ok := false, reason := some "duplicate_ignored" }, g, store) := by
  simp [guardedUpdate, clientActionGuard_reject actionKey guardMs now g h]

theorem guardedUpdate_of_accept (userDocRef : Option String) (faults : Faults) (actionKey : String)
    (newPrefs : Fields) (guardMs now : Int) (g : GuardState) (store : Store)
    (h : ¬ now - (assocGet g.table actionKey).getD 0 < guardMs) :
    guardedUpdate userDocRef faults actionKey newPrefs guardMs now g store =
      ((updatePreferences userDocRef faults newPrefs store).1,
        { table := assocSet g.table actionKey now,
          timers := g.timers ++ [(now + max (guardMs + 50) 0, actionKey)] },
        (updatePreferences userDocRef faults newPrefs store).2) := by
  simp [guardedUpdate, clientActionGuard_accept actionKey guardMs now g h]

/-- Three calls with the same key and cooldown 700: accepted, rejected inside
the window, accepted after it. -/
theorem guardedUpdateStep_window (userDocRef : Option String) (f1 f2 f3 : Faults) (key : String)
    (p1 p2 p3 : Fields) (g : GuardState) (store : Store) (t t' t'' : Int)
    (hentry : assocGet g.table key = none)
    (htimers : ∀ tm ∈ g.timers, tm.2 ≠ key)
    (ht : 700 ≤ t) (ht' : t' - t < 700) (ht'' : 700 ≤ t'' - t) :
    let r1 := guardedUpdateStep userDocRef f1 key p1 700 t g store
    let r2 := guardedUpdateStep userDocRef f2 key p2 700 t' r1.2.1 r1.2.2
    let r3 := guardedUpdateStep userDocRef f3 key p3 700 t'' r2.2.1 r2.2.2
    (r1.1, r1.2.2) = updatePreferences userDocRef f1 p1 store ∧
      r2.1 = { ok := false, reason := some "duplicate_ignored" } ∧
      r2.2.2 = r1.2.2 ∧
      (r3.1, r3.2.2) = updatePreferences userDocRef f3 p3 r2.2.2 := by
  intro r1 r2 r3
  -- first call: no entry, so `last = 0`
  have h0 : assocGet (fireDue t g).table key = none := by
    rcases fireDue_table_cases t g key with h | h
    · exact h
    · rw [h, hentry]
  have hacc1 : ¬ t - (assocGet (fireDue t g).table key).getD 0 < 700 := by
    rw [h0]; simp; omega
  have e1 : r1 = ((updatePreferences userDocRef f1 p1 store).1,
      { table := assocSet (fireDue t g).table key t,
        timers := (fireDue t g).timers ++ [(t + max (700 + 50) 0, key)] },
      (updatePreferences userDocRef f1 p1 store).2) :=
    guardedUpdate_of_accept userDocRef f1 key p1 700 t (fireDue t g) store hacc1
  -- second call: the entry written at `t` is still there
  have h1 : assocGet (fireDue t' r1.2.1).table key = some t := by
    rw [fireDue_table_of_no_due]
    · rw [e1]; exact assocGet_assocSet_self _ _ _
    · intro tm htm hk
      rw [e1] at htm
      simp only [List.mem_append, List.mem_singleton] at htm
      rcases htm with h | h
      · exact absurd hk (htimers tm (fireDue_timers_subset t g tm h))
      · rw [h]; simp; omega
  have hrej : t' - (assocGet (fireDue t' r1.2.1).table key).getD 0 < 700 := by
    rw [h1]; simpa using ht'
  have e2 : r2 = ({ ok := false, reason := some "duplicate_ignored" }, fireDue t' r1.2.1, r1.2.2) :=
    guardedUpdate_of_reject userDocRef f2 key p2 700 t' (fireDue t' r1.2.1) r1.2.2 hrej
  -- third call: the entry is the one written at `t`, or it has been deleted
  have hacc3 : ¬ t'' - (assocGet (fireDue t'' r2.2.1).table key).getD 0 < 700 := by
    rcases fireDue_table_cases t'' r2.2.1 key with h | h
    · rw [h]; simp; omega
    · rw [h, e2]
      show ¬ t'' - (assocGet (fireDue t' r1.2.1).table key).getD 0 < 700
      rw [h1]; simp; omega
  have e3 : r3 = _ :=
    guardedUpdate_of_accept userDocRef f3 key p3 700 t'' (fireDue t'' r2.2.1) r2.2.2 hacc3
  refine ⟨?_, ?_, ?_, ?_⟩
  · rw [e1]
  · rw [e2]
  · rw [e2]
  · rw [e3]

/-- The window on a guard that holds no entry and no pending timer for the key
(a missing entry is read as the time 0, hence `t ≥ 700`): three calls
`guardedUpdate(key, prefs, 700)` at times `t`, `t'` with `t' - t < 700` and
`t''` with `t'' - t ≥ 700` give, in order, the result of `updatePreferences`
(the call is accepted), `{ ok: false, reason: "duplicate_ignored" }`, and again
the result of `updatePreferences` (accepted); the store ends as after exactly
the two accepted updates.  A pending timer of an earlier call breaks this
window. -/
theorem guardedUpdate_window (userDocRef : Option String) (f1 f2 f3 : Faults) (key : String)
    (p1 p2 p3 : Fields) (g : GuardState) (store : Store) (t t' t'' : Int)
    (hentry : assocGet g.table key = none)
    (htimers : ∀ tm ∈ g.timers, tm.2 ≠ key)
    (ht : 700 ≤ t) (ht' : t' - t < 700) (ht'' : 700 ≤ t'' - t) :
    (runGuardedUpdates userDocRef
        [⟨t, key, p1, 700, f1⟩, ⟨t', key, p2, 700, f2⟩, ⟨t'', key, p3, 700, f3⟩] g store).1 =
        [(updatePreferences userDocRef f1 p1 store).1,
         { ok := false, reason := some "duplicate_ignored" },
         (updatePreferences userDocRef f3 p3 (updatePreferences userDocRef f1 p1 store).2).1] ∧
      (runGuardedUpdates userDocRef
        [⟨t, key, p1, 700, f1⟩, ⟨t', key, p2, 700, f2⟩, ⟨t'', key, p3, 700, f3⟩] g store).2.2 =
        (updatePreferences userDocRef f3 p3 (updatePreferences userDocRef f1 p1 store).2).2 := by
  obtain ⟨h1, h2, h3, h4⟩ := guardedUpdateStep_window userDocRef f1 f2 f3 key p1 p2 p3 g store
    t t' t'' hentry htimers ht ht' ht''
  simp only [Prod.ext_iff] at h1 h4
  simp only [runGuardedUpdates]
  refine ⟨?_, ?_⟩
  · rw [h1.1, h2, h4.1, h3, h1.2]
  · rw [h4.2, h3, h1.2]

/-! ## Dotted paths -/

theorem fieldPath_inj {k q : String} (h : fieldPath k = fieldPath q) : k = q := by
  unfold fieldPath at h
  rw [String.ext_iff, String.data_append, String.data_append] at h
  exact String.ext (List.append_cancel_left h)

theorem nestedPath_data (k nk : String) :
    (nestedPath k nk).data = "preferences.".data ++ (k.data ++ '.' :: nk.data) := by
  simp [nestedPath]

theorem fieldPath_data (k : String) :
    (fieldPath k).data = "preferences.".data ++ k.data := by
  simp [fieldPath]

theorem nestedPath_inj_right {k nk nq : String} (h : nestedPath k nk = nestedPath k nq) :
    nk = nq := by
  rw [String.ext_iff, nestedPath_data, nestedPath_data] at h
  have h1 := List.append_cancel_left (List.append_cancel_left h)
  exact String.ext (List.cons.inj h1).2

theorem dot_prefix_eq : ∀ (a b x y : List Char), '.' ∉ a → '.' ∉ b →
    a ++ '.' :: x = b ++ '.' :: y → a = b
  | [], [], _, _, _, _, _ => rfl
  | [], d :: b, x, y, _, hb, h => by
    simp only [List.nil_append, List.cons_append, List.cons.injEq] at h
    exact absurd (h.1 ▸ List.mem_cons_self _ _) hb
  | c :: a, [], x, y, ha, _, h => by
    simp only [List.nil_append, List.cons_append, List.cons.injEq] at h
    exact absurd (h.1 ▸ List.mem_cons_self _ _) ha
  | c :: a, d :: b, x, y, ha, hb, h => by
    simp only [List.cons_append, List.cons.injEq] at h
    have := dot_prefix_eq a b x y (fun m => ha (List.mem_cons_of_mem _ m))
      (fun m => hb (List.mem_cons_of_mem _ m)) h.2
    rw [h.1, this]

theorem nestedPath_inj_left {k q nk nq : String} (hk : '.' ∉ k.data) (hq : '.' ∉ q.data)
    (h : nestedPath k nk = nestedPath q nq) : k = q := by
  rw [String.ext_iff, nestedPath_data, nestedPath_data] at h
  exact String.ext (dot_prefix_eq _ _ _ _ hk hq (List.append_cancel_left h))

theorem fieldPath_ne_nestedPath {k q nq : String} (hk : '.' ∉ k.data) :
    fieldPath k ≠ nestedPath q nq := by
  intro h
  rw [String.ext_iff, fieldPath_data, nestedPath_data] at h
  have h1 := List.append_cancel_left h
  apply hk
  rw [h1]
  simp

theorem nestedPath_ne_fieldPath_self (k nk : String) : nestedPath k nk ≠ fieldPath k := by
  intro h
  rw [String.ext_iff, fieldPath_data, nestedPath_data] at h
  have h1 := List.append_cancel_left h
  have h2 : (k.data ++ '.' :: nk.data).length = k.data.length := by rw [h1]
  simp at h2

/-! ## Payload builder -/

/-- The two tests for an increment-tagged leaf (lines 236-239 and line 245)
agree on every value. -/
theorem innerIsInc_eq_isIncLeaf (v : JsVal) : innerIsInc v = isIncLeaf v := by
  cases v <;> simp [innerIsInc, isIncLeaf, truthy, typeofObject, isArray, JsVal.get, isStr]

theorem assocSet_keys {α : Type} (l : List (String × α)) (k : String) (v : α) :
    (assocSet l k v).map Prod.fst =
      if k ∈ l.map Prod.fst then l.map Prod.fst else l.map Prod.fst ++ [k] := by
  induction l with
  | nil => simp [assocSet]
  | cons e rest ih =>
    obtain ⟨k1, w⟩ := e
    by_cases h : k1 = k
    · subst h
      simp [assocSet]
    · have h' : ¬ k = k1 := fun e => h e.symm
      by_cases hm : k ∈ rest.map Prod.fst
      · simp only [assocSet, h, if_false, List.map_cons, ih, hm, if_true, List.mem_cons, or_true]
      · simp only [assocSet, h, if_false, List.map_cons, ih, hm, List.mem_cons, h', or_self,
          List.cons_append]

theorem assocSet_keys_nodup {α : Type} (l : List (String × α)) (k : String) (v : α)
    (h : (l.map Prod.fst).Nodup) : ((assocSet l k v).map Prod.fst).Nodup := by
  rw [assocSet_keys]
  by_cases hm : k ∈ l.map Prod.fst
  · simpa [hm] using h
  · simp only [hm, if_false]
    exact List.Nodup.append h (List.nodup_singleton k) (by simpa using hm)

theorem mem_keys_of_assocGet {α : Type} (l : List (String × α)) (k : String) (v : α)
    (h : assocGet l k = some v) : k ∈ l.map Prod.fst := by
  induction l with
  | nil => simp [assocGet] at h
  | cons e rest ih =>
    obtain ⟨k1, w⟩ := e
    by_cases h1 : k1 = k
    · simp [h1]
    · simp only [assocGet, h1, if_false] at h
      simp [ih h]

/-- The nested loop does not change the entry of a path it does not write. -/
theorem nestedLoop_other (key : String) (f : String → Instr) (q : String) :
    ∀ (nks : List String) (payload : Payload), (∀ nk ∈ nks, nestedPath key nk ≠ q) →
      assocGet (nks.foldl (fun p nk => assocSet p (nestedPath key nk) (f nk)) payload) q =
        assocGet payload q
  | [], _, _ => rfl
  | a :: rest, payload, h => by
    simp only [List.foldl_cons]
    rw [nestedLoop_other key f q rest _ (fun nk hnk => h nk (List.mem_cons_of_mem _ hnk))]
    exact assocGet_assocSet_ne _ _ _ _ (h a (List.mem_cons_self _ _))

/-- The nested loop leaves one entry for each nested key, the one computed from
that key. -/
theorem nestedLoop_self (key : String) (f : String → Instr) (nk : String) :
    ∀ (nks : List String) (payload : Payload), nk ∈ nks →
      assocGet (nks.foldl (fun p nk => assocSet p (nestedPath key nk) (f nk)) payload)
        (nestedPath key nk) = some (f nk)
  | [], _, h => by simp at h
  | a :: rest, payload, h => by
    simp only [List.foldl_cons]
    by_cases hr : nk ∈ rest
    · exact nestedLoop_self key f nk rest _ hr
    · have ha : nk = a := by
        rcases List.mem_cons.mp h with h1 | h1
        · exact h1
        · exact absurd h1 hr
      subst ha
      rw [nestedLoop_other key f (nestedPath key nk) rest _
        (fun x hx e => hr (nestedPath_inj_right e ▸ hx))]
      exact assocGet_assocSet_self _ _ _

theorem nestedLoop_keys_nodup (key : String) (f : String → Instr) :
    ∀ (nks : List String) (payload : Payload), (payload.map Prod.fst).Nodup →
      ((nks.foldl (fun p nk => assocSet p (nestedPath key nk) (f nk)) payload).map
        Prod.fst).Nodup
  | [], _, h => h
  | a :: rest, payload, h => by
    simp only [List.foldl_cons]
    exact nestedLoop_keys_nodup key f rest _ (assocSet_keys_nodup _ _ _ h)

theorem processKey_keys_nodup (newPrefs : Fields) (payload : Payload) (key : String)
    (h : (payload.map Prod.fst).Nodup) :
    ((processKey newPrefs payload key).map Prod.fst).Nodup := by
  unfold processKey
  simp only
  split
  · split
    · exact nestedLoop_keys_nodup _ _ _ _ h
    · exact assocSet_keys_nodup _ _ _ h
  · exact assocSet_keys_nodup _ _ _ h

theorem foldl_processKey_keys_nodup (newPrefs : Fields) :
    ∀ (ks : List String) (payload : Payload), (payload.map Prod.fst).Nodup →
      ((ks.foldl (processKey newPrefs) payload).map Prod.fst).Nodup
  | [], _, h => h
  | a :: rest, payload, h => by
    simp only [List.foldl_cons]
    exact foldl_processKey_keys_nodup newPrefs rest _ (processKey_keys_nodup _ _ _ h)

/-- The payload is a JavaScript object: no path occurs twice. -/
theorem buildPayload_keys_nodup (newPrefs : Fields) :
    ((buildPayload newPrefs).map Prod.fst).Nodup :=
  foldl_processKey_keys_nodup newPrefs _ [] List.nodup_nil

/-- Processing a key changes no entry other than its field path and its nested
paths. -/
theorem processKey_other (newPrefs : Fields) (payload : Payload) (key q : String)
    (hf : fieldPath key ≠ q) (hn : ∀ nk, nestedPath key nk ≠ q) :
    assocGet (processKey newPrefs payload key) q = assocGet payload q := by
  unfold processKey
  simp only
  split
  · split
    · exact nestedLoop_other _ _ _ _ _ (fun nk _ => hn nk)
    · exact assocGet_assocSet_ne _ _ _ _ hf
  · exact assocGet_assocSet_ne _ _ _ _ hf

/-- The branch taken for a field whose value is an object with an
increment-tagged leaf: the nested loop. -/
theorem processKey_nested (newPrefs : Fields) (payload : Payload) (key : String) (fs : Fields)
    (hval : getProp newPrefs key = JsVal.obj fs)
    (hinc : ∃ nk ∈ fs.map Prod.fst, isIncLeaf (getProp fs nk) = true) :
    processKey newPrefs payload key =
      (fs.map Prod.fst).foldl
        (fun p nk => assocSet p (nestedPath key nk) (leafInstr (getProp fs nk))) payload := by
  unfold processKey
  simp only [hval, truthy, typeofObject, isArray, keys, JsVal.get]
  have : ((fs.map Prod.fst).any fun nk => isIncLeaf (getProp fs nk)) = true := by
    rw [List.any_eq_true]
    exact hinc
  simp [this]

/-- Keys that do not touch a path leave its entry alone. -/
theorem foldl_processKey_other (newPrefs : Fields) (q : String) :
    ∀ (ks : List String) (payload : Payload),
      (∀ k ∈ ks, ∀ p, assocGet (processKey newPrefs p k) q = assocGet p q) →
      assocGet (ks.foldl (processKey newPrefs) payload) q = assocGet payload q
  | [], _, _ => rfl
  | a :: rest, payload, h => by
    simp only [List.foldl_cons]
    rw [foldl_processKey_other newPrefs q rest _
      (fun k hk => h k (List.mem_cons_of_mem _ hk))]
    exact h a (List.mem_cons_self _ _) payload

theorem foldl_processKey_nested (newPrefs : Fields) (key : String) (fs : Fields)
    (hkdot : '.' ∉ key.data)
    (hval : getProp newPrefs key = JsVal.obj fs)
    (hinc : ∃ nk ∈ fs.map Prod.fst, isIncLeaf (getProp fs nk) = true)
    (nk : String) (hnk : nk ∈ fs.map Prod.fst) :
    ∀ (ks : List String) (payload : Payload), (∀ k ∈ ks, '.' ∉ k.data) → key ∈ ks →
      assocGet (ks.foldl (processKey newPrefs) payload) (nestedPath key nk) =
        some (leafInstr (getProp fs nk))
  | [], _, _, h => by simp at h
  | a :: rest, payload, hdots, h => by
    simp only [List.foldl_cons]
    by_cases hr : key ∈ rest
    · exact foldl_processKey_nested newPrefs key fs hkdot hval hinc nk hnk rest _
        (fun k hk => hdots k (List.mem_cons_of_mem _ hk)) hr
    · have ha : key = a := by
        rcases List.mem_cons.mp h with h1 | h1
        · exact h1
        · exact absurd h1 hr
      subst ha
      rw [foldl_processKey_other newPrefs _ rest]
      · rw [processKey_nested newPrefs payload key fs hval hinc]
        exact nestedLoop_self key (fun nk => leafInstr (getProp fs nk)) nk _ _ hnk
      · intro k hk p
        have hkd : '.' ∉ k.data := hdots k (List.mem_cons_of_mem _ hk)
        apply processKey_other
        · exact fieldPath_ne_nestedPath hkd
        · intro nq e
          exact hr (nestedPath_inj_left hkd hkdot e ▸ hk)

theorem foldl_processKey_no_field_entry (newPrefs : Fields) (key : String) (fs : Fields)
    (hkdot : '.' ∉ key.data)
    (hval : getProp newPrefs key = JsVal.obj fs)
    (hinc : ∃ nk ∈ fs.map Prod.fst, isIncLeaf (getProp fs nk) = true)
    (ks : List String) (payload : Payload) :
    assocGet (ks.foldl (processKey newPrefs) payload) (fieldPath key) =
      assocGet payload (fieldPath key) := by
  apply foldl_processKey_other
  intro k _ p
  by_cases hk : k = key
  · subst hk
    rw [processKey_nested newPrefs p k fs hval hinc]
    exact nestedLoop_other k _ _ _ _ (fun nq _ => nestedPath_ne_fieldPath_self k nq)
  · apply processKey_other
    · exact fun e => hk (fieldPath_inj e)
    · intro nq e
      exact fieldPath_ne_nestedPath hkdot e.symm

/-- C2 (amended): when no top-level field name of the request contains a dot,
then for every top-level field `key` whose value is an object with at least one
increment-tagged leaf, the payload has, for every nested key `nk`, exactly one
entry at `preferences.key.nk`: `increment(leaf.n || 1)` when the leaf is
increment-tagged and the leaf itself otherwise; and it has no entry at
`preferences.key`. -/
theorem buildPayload_nested_entries (newPrefs : Fields) (key : String) (fs : Fields)
    (hdots : ∀ k ∈ newPrefs.map Prod.fst, '.' ∉ k.data)
    (hkey : key ∈ newPrefs.map Prod.fst)
    (hval : getProp newPrefs key = JsVal.obj fs)
    (hinc : ∃ nk ∈ fs.map Prod.fst, isIncLeaf (getProp fs nk) = true) :
    (∀ nk ∈ fs.map Prod.fst,
        assocGet (buildPayload newPrefs) (nestedPath key nk) =
            some (if isIncLeaf (getProp fs nk) then
                Instr.increment (((getProp fs nk).get "n").or (JsVal.num 1))
              else Instr.lit (getProp fs nk)) ∧
          ((buildPayload newPrefs).map Prod.fst).count (nestedPath key nk) = 1) ∧
      assocGet (buildPayload newPrefs) (fieldPath key) = none := by
  refine ⟨?_, ?_⟩
  · intro nk hnk
    have hget := foldl_processKey_nested newPrefs key fs (hdots key hkey) hval hinc nk hnk
      (newPrefs.map Prod.fst) [] hdots hkey
    refine ⟨?_, ?_⟩
    · rw [show buildPayload newPrefs = (newPrefs.map Prod.fst).foldl (processKey newPrefs) []
        from rfl, hget]
      unfold leafInstr
      rw [innerIsInc_eq_isIncLeaf]
    · exact List.count_eq_one_of_mem (buildPayload_keys_nodup newPrefs)
        (mem_keys_of_assocGet _ _ _ hget)
  · exact foldl_processKey_no_field_entry newPrefs key fs (hdots key hkey) hval hinc _ []

/-- C2 (instance): `{ dailyLog: { interact: inc 1, feed: 3 }, lastAction: "x" }`. -/
theorem buildPayload_nested_entries_witness :
    ((∀ nk ∈ ["interact", "feed"],
        assocGet
            (buildPayload
              [("dailyLog", JsVal.obj [("interact", incTag 1), ("feed", JsVal.num 3)]),
               ("lastAction", JsVal.str "x")])
            (nestedPath "dailyLog" nk) =
            some (if isIncLeaf (getProp [("interact", incTag 1), ("feed", JsVal.num 3)] nk) then
                Instr.increment
                  (((getProp [("interact", incTag 1), ("feed", JsVal.num 3)] nk).get "n").or
                    (JsVal.num 1))
              else Instr.lit (getProp [("interact", incTag 1), ("feed", JsVal.num 3)] nk)) ∧
          ((buildPayload
              [("dailyLog", JsVal.obj [("interact", incTag 1), ("feed", JsVal.num 3)]),
               ("lastAction", JsVal.str "x")]).map Prod.fst).count
            (nestedPath "dailyLog" nk) = 1) ∧
      assocGet
        (buildPayload
          [("dailyLog", JsVal.obj [("interact", incTag 1), ("feed", JsVal.num 3)]),
           ("lastAction", JsVal.str "x")])
        (fieldPath "dailyLog") = none) :=
  buildPayload_nested_entries
    [("dailyLog", JsVal.obj [("interact", incTag 1), ("feed", JsVal.num 3)]),
     ("lastAction", JsVal.str "x")]
    "dailyLog" [("interact", incTag 1), ("feed", JsVal.num 3)]
    (by decide) (by decide) rfl ⟨"interact", by decide, by decide⟩

/-- C2 (as stated, fails): in `{ a: { b: inc 1 }, "a.b": 7 }` the field `a`
has the increment-tagged leaf `b`, but the payload entry at `preferences.a.b`
is the literal 7 written for the field `a.b`: the increment is dropped. -/
theorem buildPayload_dotted_key_drops_increment :
    getProp [("a", JsVal.obj [("b", incTag 1)]), ("a.b", JsVal.num 7)] "a" =
        JsVal.obj [("b", incTag 1)] ∧
      isIncLeaf (getProp [("b", incTag 1)] "b") = true ∧
      buildPayload [("a", JsVal.obj [("b", incTag 1)]), ("a.b", JsVal.num 7)] =
        [("preferences.a.b", Instr.lit (JsVal.num 7))] ∧
      assocGet (buildPayload [("a", JsVal.obj [("b", incTag 1)]), ("a.b", JsVal.num 7)])
        (nestedPath "a" "b") ≠ some (Instr.increment (JsVal.num 1)) := by
  refine ⟨rfl, by decide, rfl, ?_⟩
  intro h
  have h2 : assocGet (buildPayload [("a", JsVal.obj [("b", incTag 1)]), ("a.b", JsVal.num 7)])
      (nestedPath "a" "b") = some (Instr.lit (JsVal.num 7)) := rfl
  rw [h2] at h
  cases h

/-- The window on a fresh guard: first call at 1000, second at 1300, third at
1700. -/
theorem guardedUpdate_window_witness :
    (assocGet GuardState.empty.table "feed" = none ∧ (700 : Int) ≤ 1000 ∧
      (1300 : Int) - 1000 < 700 ∧ (700 : Int) ≤ 1700 - 1000) ∧
    ((runGuardedUpdates (some "bob")
        [⟨1000, "feed", feedRequest 1, 700, Faults.none⟩,
         ⟨1300, "feed", feedRequest 1, 700, Faults.none⟩,
         ⟨1700, "feed", feedRequest 1, 700, Faults.none⟩] GuardState.empty (feedStore 0)).1 =
        [(updatePreferences (some "bob") Faults.none (feedRequest 1) (feedStore 0)).1,
         { ok := false, reason := some "duplicate_ignored" },
         (updatePreferences (some "bob") Faults.none (feedRequest 1)
           (updatePreferences (some "bob") Faults.none (feedRequest 1) (feedStore 0)).2).1] ∧
      (runGuardedUpdates (some "bob")
        [⟨1000, "feed", feedRequest 1, 700, Faults.none⟩,
         ⟨1300, "feed", feedRequest 1, 700, Faults.none⟩,
         ⟨1700, "feed", feedRequest 1, 700, Faults.none⟩] GuardState.empty (feedStore 0)).2.2 =
        (updatePreferences (some "bob") Faults.none (feedRequest 1)
          (updatePreferences (some "bob") Faults.none (feedRequest 1) (feedStore 0)).2).2) :=
  ⟨⟨rfl, by decide, by decide, by decide⟩,
    guardedUpdate_window (some "bob") Faults.none Faults.none Faults.none "feed"
      (feedRequest 1) (feedRequest 1) (feedRequest 1) GuardState.empty (feedStore 0)
      1000 1300 1700 rfl (by simp [GuardState.empty]) (by decide) (by decide) (by decide)⟩

/-- C8: when `clientActionGuard` rejects, `guardedUpdate` returns
`{ ok: false, reason: "duplicate_ignored" }` and leaves the store (document and
operation log) and the guard as they were; when it accepts, the result and the
store after `guardedUpdate` are those of `updatePreferences` on the same
request. -/
theorem guardedUpdate_reject_noop_accept_delegates (userDocRef : Option String)
    (faults : Faults) (actionKey : String) (newPrefs : Fields) (guardMs now : Int)
    (g : GuardState) (store : Store) :
    ((clientActionGuard actionKey guardMs now g).1 = false →
        guardedUpdate userDocRef faults actionKey newPrefs guardMs now g store =
          ({ ok := false, reason := some "duplicate_ignored" }, g, store)) ∧
    ((clientActionGuard actionKey guardMs now g).1 = true →
        ((guardedUpdate userDocRef faults actionKey newPrefs guardMs now g store).1,
          (guardedUpdate userDocRef faults actionKey newPrefs guardMs now g store).2.2) =
          updatePreferences userDocRef faults newPrefs store) := by
  by_cases h : now - (assocGet g.table actionKey).getD 0 < guardMs
  · rw [guardedUpdate_of_reject _ _ _ _ _ _ _ _ h, clientActionGuard_reject _ _ _ _ h]
    simp
  · rw [guardedUpdate_of_accept _ _ _ _ _ _ _ _ h, clientActionGuard_accept _ _ _ _ h]
    simp

/-- C8 (instance): a call rejected at 1300 against an entry written at 1000,
and a call accepted at 1700. -/
theorem guardedUpdate_reject_noop_accept_delegates_witness :
    guardedUpdate (some "bob") Faults.none "feed" (feedRequest 1) 700 1300
        { table := [("feed", 1000)], timers := [(1750, "feed")] } (feedStore 0) =
      ({ ok := false, reason := some "duplicate_ignored" },
        { table := [("feed", 1000)], timers := [(1750, "feed")] }, feedStore 0) ∧
    ((guardedUpdate (some "bob") Faults.none "feed" (feedRequest 1) 700 1700
        { table := [("feed", 1000)], timers := [(1750, "feed")] } (feedStore 0)).1,
      (guardedUpdate (some "bob") Faults.none "feed" (feedRequest 1) 700 1700
        { table := [("feed", 1000)], timers := [(1750, "feed")] } (feedStore 0)).2.2) =
      updatePreferences (some "bob") Faults.none (feedRequest 1) (feedStore 0) :=
  ⟨(guardedUpdate_reject_noop_accept_delegates (some "bob") Faults.none "feed" (feedRequest 1)
      700 1300 { table := [("feed", 1000)], timers := [(1750, "feed")] } (feedStore 0)).1
      (by decide),
    (guardedUpdate_reject_noop_accept_delegates (some "bob") Faults.none "feed" (feedRequest 1)
      700 1700 { table := [("feed", 1000)], timers := [(1750, "feed")] } (feedStore 0)).2
      (by decide)⟩

/-- C9: a call to `clientActionGuard` that returns false leaves the guard (map
and pending timers) unchanged; in particular the window start recorded for the
key is the one written by the last accepted call. -/
theorem clientActionGuard_rejected_keeps_window (key : String) (ms now : Int) (g : GuardState)
    (h : (clientActionGuard key ms now g).1 = false) :
    (clientActionGuard key ms now g).2 = g ∧
      assocGet (clientActionGuard key ms now g).2.table key = assocGet g.table key := by
  by_cases hlt : now - (assocGet g.table key).getD 0 < ms
  · rw [clientActionGuard_reject _ _ _ _ hlt]
    exact ⟨rfl, rfl⟩
  · rw [clientActionGuard_accept _ _ _ _ hlt] at h
    simp at h

/-- C9 (instance): an entry written at 1000, a call rejected at 1300. -/
theorem clientActionGuard_rejected_keeps_window_witness :
    (clientActionGuard "feed" 700 1300
        { table := [("feed", 1000)], timers := [(1750, "feed")] }).1 = false ∧
    ((clientActionGuard "feed" 700 1300
        { table := [("feed", 1000)], timers := [(1750, "feed")] }).2 =
        { table := [("feed", 1000)], timers := [(1750, "feed")] } ∧
      assocGet (clientActionGuard "feed" 700 1300
        { table := [("feed", 1000)], timers := [(1750, "feed")] }).2.table "feed" =
        assocGet [("feed", (1000 : Int))] "feed") :=
  ⟨by decide,
    clientActionGuard_rejected_keeps_window "feed" 700 1300
      { table := [("feed", 1000)], timers := [(1750, "feed")] } (by decide)⟩

/-- C6 (fails on the code): calls with key `feed` and cooldown 700 at times
1000, 1700 and 1800 are all accepted.  The timer of the first call, due at
1750, deletes the entry written at 1700, so the calls at 1700 and 1800 are both
accepted although they are 100 ms apart. -/
theorem runGuard_stale_timer_accepts_within_window :
    (runGuard [⟨1000, "feed", 700⟩, ⟨1700, "feed", 700⟩, ⟨1800, "feed", 700⟩]
        GuardState.empty).1 = [true, true, true] ∧
      (1800 : Int) - 1700 < 700 := by
  decide

/-- C7 (fails on the code): three calls `guardedUpdate("feed", prefs, 700)` on
a fresh guard, at 2025-03-30T23:30:00.000Z, 700 ms later and 800 ms later, are
all accepted.  The timer of the first call, due 750 ms after it, deletes the
entry written by the second call, so the third call, 100 ms after the second,
is not answered `duplicate_ignored` and the stored count is incremented three
times. -/
theorem guardedUpdate_stale_timer_accepts_duplicate :
    (1743377400800 : Int) - 1743377400700 < 700 ∧
      (runGuardedUpdates (some "bob")
        [⟨1743377400000, "feed", feedRequest 1, 700, Faults.none⟩,
         ⟨1743377400700, "feed", feedRequest 1, 700, Faults.none⟩,
         ⟨1743377400800, "feed", feedRequest 1, 700, Faults.none⟩]
        GuardState.empty (feedStore 0)).1 =
        [{ ok := true, reason := none }, { ok := true, reason := none },
         { ok := true, reason := none }] ∧
      Store.read
        (runGuardedUpdates (some "bob")
          [⟨1743377400000, "feed", feedRequest 1, 700, Faults.none⟩,
           ⟨1743377400700, "feed", feedRequest 1, 700, Faults.none⟩,
           ⟨1743377400800, "feed", feedRequest 1, 700, Faults.none⟩]
          GuardState.empty (feedStore 0)).2.2
        "preferences.dailyLog.feed" = JsVal.num 3 :=
  ⟨by decide, by decide, rfl⟩

/-- C10 (fails on the code): after accepted calls at 1000 and 1700 the map
holds the entry written at 1700; the timer of the first call, due at 1750,
removes it 50 ms after it was written, before its window of 700 ms has
elapsed. -/
theorem fireDue_removes_entry_before_window :
    (runGuard [⟨1000, "feed", 700⟩, ⟨1700, "feed", 700⟩] GuardState.empty).1 = [true, true] ∧
      assocGet (runGuard [⟨1000, "feed", 700⟩, ⟨1700, "feed", 700⟩] GuardState.empty).2.table
        "feed" = some 1700 ∧
      assocGet
        (fireDue 1750
          (runGuard [⟨1000, "feed", 700⟩, ⟨1700, "feed", 700⟩] GuardState.empty).2).table
        "feed" = none ∧
      (1750 : Int) < 1700 + 700 := by
  decide

/-! ## Persistence decision and increments -/

/-- Against a document that does not exist, `updatePreferences` issues
`setDoc(..., { merge: true })` with the request verbatim under `preferences`. -/
theorem updatePreferences_missing_doc (username : String) (faults : Faults) (newPrefs : Fields)
    (store : Store) (hdoc : store.doc = none) (hget : faults.getDoc = none)
    (hset : faults.setDoc = none) :
    updatePreferences (some username) faults newPrefs store =
      ({ ok := true, reason := none },
        { doc := some (JsVal.obj
            [("username", JsVal.str username), ("username_lc", JsVal.str username),
             ("preferences", JsVal.obj newPrefs)]),
          log := store.log ++ [StoreOp.getDoc] ++ [StoreOp.setDocMerge (JsVal.obj
            [("username", JsVal.str username), ("username_lc", JsVal.str username),
             ("preferences", JsVal.obj newPrefs)])] }) := by
  simp [updatePreferences, hdoc, hget, hset]

/-- C1 (fails on the code): for a document that does not exist, the request
`{ dailyLog: { feed: { __op: "inc", n: 1 } } }` is written by
`setDoc(..., { merge: true })` as it stands, so the stored
`preferences.dailyLog.feed` is the tag object `{ __op: "inc", n: 1 }`, not the
number 1. -/
theorem updatePreferences_missing_doc_stores_tag :
    (updatePreferences (some "bob") Faults.none (feedRequest 1) emptyStore).1 =
        { ok := true, reason := none } ∧
      (updatePreferences (some "bob") Faults.none (feedRequest 1) emptyStore).2.read
        "preferences.dailyLog.feed" = incTag 1 ∧
      (updatePreferences (some "bob") Faults.none (feedRequest 1) emptyStore).2.read
        "preferences.dailyLog.feed" ≠ JsVal.num 1 := by
  refine ⟨rfl, rfl, ?_⟩
  intro h
  have h2 : (updatePreferences (some "bob") Faults.none (feedRequest 1) emptyStore).2.read
      "preferences.dailyLog.feed" = incTag 1 := rfl
  rw [h2] at h
  cases h

/-- The instruction written for the leaf `{ __op: "inc", n: N }`: an increment
by `N`, except that `N = 0` gives an increment by 1 (`0 || 1`). -/
theorem leafInstr_incTag (n : Int) :
    leafInstr (incTag n) = Instr.increment (JsVal.num (if n = 0 then 1 else n)) := by
  by_cases h : n = 0
  · subst h
    rfl
  · simp [leafInstr, innerIsInc, incTag, truthy, JsVal.get, getProp, assocGet, isStr, JsVal.or, h]

/-- C3 (fails on the code): for the leaf `{ __op: "inc", n: 0 }` the payload
builder emits an increment by 1, not by 0. -/
theorem leafInstr_zero_increments_by_one :
    leafInstr (incTag 0) = Instr.increment (JsVal.num 1) ∧
      buildPayload (feedRequest 0) =
        [("preferences.dailyLog.feed", Instr.increment (JsVal.num 1))] :=
  ⟨rfl, rfl⟩

theorem buildPayload_feedRequest (n : Int) :
    buildPayload (feedRequest n) =
      [("preferences.dailyLog.feed", Instr.increment (JsVal.num (if n = 0 then 1 else n)))] := by
  have h := leafInstr_incTag n
  have hp : nestedPath "dailyLog" "feed" = "preferences.dailyLog.feed" := rfl
  have hi : isIncLeaf (incTag n) = true := rfl
  simp [buildPayload, feedRequest, processKey, getProp, assocGet, truthy, typeofObject, isArray,
    keys, JsVal.get, hi, h, hp, assocSet]

theorem applyPayload_feedDoc (v m : Int) :
    applyPayload (feedDoc v) [("preferences.dailyLog.feed", Instr.increment (JsVal.num m))] =
      some (feedDoc (v + m)) := by
  have hs : pathSegments "preferences.dailyLog.feed" = ["preferences", "dailyLog", "feed"] := rfl
  simp [applyPayload, hs, writeAt, feedDoc, getProp, assocGet, assocSet, applyInstr]

theorem updatePreferences_feedRequest_doc (n v : Int) (log : List StoreOp) :
    (updatePreferences (some "bob") Faults.none (feedRequest n)
      { doc := some (feedDoc v), log := log }).2.doc =
      some (feedDoc (v + if n = 0 then 1 else n)) := by
  simp [updatePreferences, Faults.none, buildPayload_feedRequest, applyPayload_feedDoc]

theorem applyFeedIncrements_doc (ns : List Int) :
    ∀ (v : Int) (log : List StoreOp), (∀ n ∈ ns, n ≠ 0) →
      (applyFeedIncrements ns { doc := some (feedDoc v), log := log }).doc =
        some (feedDoc (v + ns.sum)) := by
  induction ns with
  | nil => intro v log _; simp [applyFeedIncrements]
  | cons n rest ih =>
    intro v log h
    have hn : n ≠ 0 := h n (List.mem_cons_self _ _)
    have hd := updatePreferences_feedRequest_doc n v log
    simp only [hn, if_false] at hd
    have e : applyFeedIncrements (n :: rest) { doc := some (feedDoc v), log := log } =
        applyFeedIncrements rest
          { doc := some (feedDoc (v + n)),
            log := (updatePreferences (some "bob") Faults.none (feedRequest n)
              { doc := some (feedDoc v), log := log }).2.log } := by
      simp only [applyFeedIncrements, List.foldl_cons]
      congr 1
      rw [← hd]
    rw [e, ih (v + n) _ (fun m hm => h m (List.mem_cons_of_mem _ hm))]
    simp [add_assoc]

/-- Increment-only updates by non-zero amounts add up: the stored counter is
the initial value plus the sum of the increments, whatever the order in which
the updates are applied. -/
theorem applyFeedIncrements_sum (ns ms : List Int) (v : Int) (hperm : List.Perm ns ms)
    (hnz : ∀ n ∈ ns, n ≠ 0) :
    (applyFeedIncrements ms (feedStore v)).read "preferences.dailyLog.feed" =
      JsVal.num (v + ns.sum) := by
  have hms : ∀ n ∈ ms, n ≠ 0 := fun n hn => hnz n (hperm.mem_iff.mpr hn)
  have hd := applyFeedIncrements_doc ms v [] hms
  have hs : pathSegments "preferences.dailyLog.feed" = ["preferences", "dailyLog", "feed"] := rfl
  unfold feedStore Store.read
  rw [hd, hs, hperm.sum_eq]
  simp [readAt, feedDoc, JsVal.get, getProp, assocGet]

/-- C4 (fails on the code): on an existing document whose counter is 5, the
increment-only update by 0 leaves the stored counter at 6, not at 5 + 0. -/
theorem updatePreferences_increment_zero_adds_one :
    (updatePreferences (some "bob") Faults.none (feedRequest 0) (feedStore 5)).1 =
        { ok := true, reason := none } ∧
      (updatePreferences (some "bob") Faults.none (feedRequest 0) (feedStore 5)).2.read
        "preferences.dailyLog.feed" = JsVal.num 6 :=
  ⟨rfl, rfl⟩

/-- C5 (fails on the code): two runs of `incrementDailyAction({ feed: 1 })`
that read the same cached preferences (feed count 0) both write the literal
count 1; after both writes the stored feed count for today is 1, not 2. -/
theorem incrementDailyAction_twice_loses_update :
    (incrementDailyAction (some "bob") Faults.none (feedCache 0) "2025-01-01" [("feed", 1)] []
        (incrementDailyAction (some "bob") Faults.none (feedCache 0) "2025-01-01"
          [("feed", 1)] [] (feedStore 0)).2).2.read "preferences.dailyLog.feed" =
        JsVal.num 1 ∧
      (incrementDailyAction (some "bob") Faults.none (feedCache 0) "2025-01-01" [("feed", 1)] []
        (incrementDailyAction (some "bob") Faults.none (feedCache 0) "2025-01-01"
          [("feed", 1)] [] (feedStore 0)).2).2.read
        "preferences.dailyHistory.2025-01-01.feed" = JsVal.num 1 ∧
      buildPayload (dailyActionRequest (feedCache 0) "2025-01-01" [("feed", 1)] []) =
        [("preferences.dailyHistory",
            Instr.lit (JsVal.obj [("2025-01-01", JsVal.obj [("feed", JsVal.num 1)])])),
         ("preferences.dailyLog", Instr.lit (JsVal.obj [("feed", JsVal.num 1)])),
         ("preferences.stats",
            Instr.lit (JsVal.obj
              [("hunger", JsVal.num 33), ("happiness", JsVal.num 0), ("energy", JsVal.num 50),
               ("love", JsVal.num 0), ("xp", JsVal.num 10)]))] :=
  ⟨rfl, rfl, rfl⟩

/-! ## Purge of guard entries -/

theorem assocGet_foldl_mapDelete_of_mem (k : String) :
    ∀ (tms : List (Int × String)) (t : List (String × Int)), k ∈ tms.map Prod.snd →
      assocGet (tms.foldl (fun t tm => mapDelete t tm.2) t) k = none
  | [], _, h => by simp at h
  | a :: rest, t, h => by
    simp only [List.foldl_cons]
    by_cases ha : a.2 = k
    · rcases assocGet_foldl_mapDelete_cases rest (mapDelete t a.2) k with h1 | h1
      · exact h1
      · rw [h1, ha]
        exact assocGet_mapDelete_self t k
    · apply assocGet_foldl_mapDelete_of_mem k rest
      simp only [List.map_cons, List.mem_cons] at h
      rcases h with h1 | h1
      · exact absurd h1.symm ha
      · exact h1

/-- A key with a timer due by `now` has no entry once the due timers have run. -/
theorem fireDue_table_of_due (now : Int) (g : GuardState) (k : String) (due : Int)
    (hmem : (due, k) ∈ g.timers) (hdue : due ≤ now) :
    assocGet (fireDue now g).table k = none := by
  unfold fireDue
  apply assocGet_foldl_mapDelete_of_mem
  rw [List.mem_map]
  exact ⟨(due, k), List.mem_filter.mpr ⟨hmem, by simpa using hdue⟩, rfl⟩

theorem purgePending_fireDue (key : String) (d now : Int) (g : GuardState)
    (h : PurgePending key d g) : PurgePending key d (fireDue now g) := by
  rcases h with h | ⟨due, hmem, hle⟩
  · left
    rcases fireDue_table_cases now g key with h1 | h1
    · exact h1
    · rw [h1, h]
  · by_cases hd : due ≤ now
    · exact Or.inl (fireDue_table_of_due now g key due hmem hd)
    · right
      refine ⟨due, ?_, hle⟩
      unfold fireDue
      exact List.mem_filter.mpr ⟨hmem, by simpa using hd⟩

theorem purgePending_call (key : String) (d : Int) (ck : String) (ms now : Int) (g : GuardState)
    (h : PurgePending key d g)
    (hrej : ck = key → (clientActionGuard ck ms now g).1 = false) :
    PurgePending key d (clientActionGuard ck ms now g).2 := by
  by_cases hlt : now - (assocGet g.table ck).getD 0 < ms
  · rw [clientActionGuard_reject _ _ _ _ hlt]
    exact h
  · have hne : ck ≠ key := by
      intro e
      have := hrej e
      rw [clientActionGuard_accept _ _ _ _ hlt] at this
      simp at this
    rw [clientActionGuard_accept _ _ _ _ hlt]
    rcases h with h | ⟨due, hmem, hle⟩
    · left
      show assocGet (assocSet g.table ck now) key = none
      rw [assocGet_assocSet_ne _ _ _ _ hne, h]
    · right
      exact ⟨due, List.mem_append_left _ hmem, hle⟩

theorem purgePending_runGuard (key : String) (d : Int) :
    ∀ (calls : List GuardCall) (g : GuardState), PurgePending key d g →
      (∀ p ∈ calls.zip (runGuard calls g).1, p.1.key = key → p.2 = false) →
      PurgePending key d (runGuard calls g).2
  | [], _, h, _ => h
  | c :: rest, g, h, hrej => by
    have hstep : PurgePending key d (guardStep c.now c.key c.ms g).2 := by
      apply purgePending_call key d c.key c.ms c.now (fireDue c.now g)
        (purgePending_fireDue key d c.now g h)
      intro e
      exact hrej (c, (guardStep c.now c.key c.ms g).1) (by simp [runGuard]) e
    have := purgePending_runGuard key d rest (guardStep c.now c.key c.ms g).2 hstep
      (fun p hp => hrej p (by
        simp only [runGuard, List.zip_cons_cons, List.mem_cons]
        exact Or.inr hp))
    simpa [runGuard] using this

/-- Guard entries are purged: after a call for `key` accepted at time `t` with
cooldown `ms`, if no later call for `key` is accepted, then at every time
`T ≥ t + ms + 50` (and not before `t`) the map holds no entry for `key`. -/
theorem guard_entry_purged (g : GuardState) (key : String) (ms t T : Int)
    (calls : List GuardCall)
    (hacc : (guardStep t key ms g).1 = true)
    (hrej : ∀ p ∈ calls.zip (runGuard calls (guardStep t key ms g).2).1,
      p.1.key = key → p.2 = false)
    (hT : t + ms + 50 ≤ T) (htT : t ≤ T) :
    assocGet (fireDue T (runGuard calls (guardStep t key ms g).2).2).table key = none := by
  have h1 : PurgePending key (t + max (ms + 50) 0) (guardStep t key ms g).2 := by
    unfold guardStep at hacc ⊢
    by_cases hlt : t - (assocGet (fireDue t g).table key).getD 0 < ms
    · rw [clientActionGuard_reject _ _ _ _ hlt] at hacc
      simp at hacc
    · rw [clientActionGuard_accept _ _ _ _ hlt]
      right
      exact ⟨t + max (ms + 50) 0, by simp, le_refl _⟩
  have h2 := purgePending_runGuard key _ calls _ h1 hrej
  have hd : t + max (ms + 50) 0 ≤ T := by
    rcases max_cases (ms + 50) 0 with ⟨e, _⟩ | ⟨e, _⟩ <;> rw [e] <;> omega
  rcases purgePending_fireDue key _ T _ h2 with h3 | ⟨due, hmem, hle⟩
  · exact h3
  · -- a timer still pending after the timers due by `T` have run is due after `T`
    exfalso
    unfold fireDue at hmem
    have := (List.mem_filter.mp hmem).2
    simp at this
    omega


/-- The payload of `incrementDailyAction({ feed: 1 })` on a cached feed count
`v` holds whole-field literals only. -/
theorem dailyActionRequest_feedCache (v : Int) (todayKey : String) :
    buildPayload (dailyActionRequest (feedCache v) todayKey [("feed", 1)] []) =
      [("preferences.dailyHistory",
          Instr.lit (JsVal.obj [(todayKey, JsVal.obj [("feed", JsVal.num (v + 1))])])),
       ("preferences.dailyLog", Instr.lit (JsVal.obj [("feed", JsVal.num (v + 1))])),
       ("preferences.stats",
          Instr.lit (JsVal.obj
            [("hunger", JsVal.num (min 100 (roundPercent (v + 1)))), ("happiness", JsVal.num 0),
             ("energy", JsVal.num 50), ("love", JsVal.num 0), ("xp", JsVal.num 10)]))] := by
  have h1 : fieldPath "dailyHistory" = "preferences.dailyHistory" := rfl
  have h2 : fieldPath "dailyLog" = "preferences.dailyLog" := rfl
  have h3 : fieldPath "stats" = "preferences.stats" := rfl
  have h4 : min 100 (roundPercent 0) = 0 := by decide
  simp [buildPayload, dailyActionRequest, feedCache, todayCountsOf, spread, assocSet, assocGet,
    countOf, newStatsOf, getProp, countsToJs, processKey, truthy, typeofObject, isArray, keys,
    JsVal.get, isIncLeaf, isStr, h1, h2, h3, h4]

/-- Two runs of `incrementDailyAction({ feed: 1 })` on the same cached count `v`
store `v + 1`, whatever `v` is: the second write repeats the first. -/
theorem incrementDailyAction_twice_same_cache (v : Int) (todayKey : String) :
    (incrementDailyAction (some "bob") Faults.none (feedCache v) todayKey [("feed", 1)] []
        (incrementDailyAction (some "bob") Faults.none (feedCache v) todayKey
          [("feed", 1)] [] (feedStore v)).2).2.read "preferences.dailyLog.feed" =
      JsVal.num (v + 1) := by
  have hs1 : pathSegments "preferences.dailyHistory" = ["preferences", "dailyHistory"] := rfl
  have hs2 : pathSegments "preferences.dailyLog" = ["preferences", "dailyLog"] := rfl
  have hs3 : pathSegments "preferences.stats" = ["preferences", "stats"] := rfl
  have hs4 : pathSegments "preferences.dailyLog.feed" = ["preferences", "dailyLog", "feed"] := rfl
  simp [incrementDailyAction, updatePreferences, Faults.none, feedStore, feedDoc,
    dailyActionRequest_feedCache, applyPayload, hs1, hs2, hs3, hs4, writeAt, applyInstr, getProp,
    assocGet, assocSet, Store.read, readAt, JsVal.get]

/-! ## Stats derivation -/

theorem roundPercent_eq_roundHalfUp (count : Int) :
    roundPercent count = roundHalfUp ((count : ℚ) / 3 * 100) := by
  unfold roundPercent roundHalfUp
  have h : ((count : ℚ) / 3 * 100 + 1 / 2) = (((200 * count + 3 : Int) : ℚ) / ((6 : ℕ) : ℚ)) := by
    push_cast
    ring
  rw [h, Rat.floor_intCast_div_natCast]
  rfl

theorem roundOfThirty_eq_roundHalfUp (success : Int) :
    roundOfThirty success = roundHalfUp ((success : ℚ) / 30 * 100) := by
  unfold roundOfThirty roundHalfUp
  have h : ((success : ℚ) / 30 * 100 + 1 / 2) =
      (((200 * success + 30 : Int) : ℚ) / ((60 : ℕ) : ℚ)) := by
    push_cast
    ring
  rw [h, Rat.floor_intCast_div_natCast]
  rfl

theorem assocGet_assocSet {α : Type} (l : List (String × α)) (k q : String) (v : α) :
    assocGet (assocSet l k v) q = if k = q then some v else assocGet l q := by
  by_cases h : k = q
  · subst h
    simp [assocGet_assocSet_self]
  · simp [h, assocGet_assocSet_ne _ _ _ _ h]

/-- The five stats written by `incrementDailyAction`, read back from the stats
object it builds. -/
theorem newStatsOf_fields (preferences : Prefs) (todayCounts delta : Counts) :
    getProp (newStatsOf preferences todayCounts delta) "hunger" =
        JsVal.num (min 100 (roundPercent (countOf todayCounts "feed"))) ∧
      getProp (newStatsOf preferences todayCounts delta) "happiness" =
        JsVal.num (min 100 (roundPercent (countOf todayCounts "play"))) ∧
      getProp (newStatsOf preferences todayCounts delta) "energy" =
        JsVal.num (min 100
          (50 + countOf todayCounts "interact" * 10 + countOf todayCounts "rest" * 5)) ∧
      getProp (newStatsOf preferences todayCounts delta) "love" =
        JsVal.num (min 100 (countOf todayCounts "groom" * 15)) ∧
      getProp (newStatsOf preferences todayCounts delta) "xp" =
        JsVal.num (min 100
          ((match getProp preferences.stats "xp" with
            | JsVal.num x => x
            | _ => 0) +
            max 0 ((delta.map Prod.snd).foldl (fun a b => a + b) 0 * 10))) := by
  simp [newStatsOf, spread, getProp, assocGet_assocSet]

/-- C11: for all integer counts, `computeStats` of LeftSidebar gives
`hunger = min(100, round(feed / 3 * 100))` and
`happiness = min(100, round(play / 3 * 100))`, and so do the stats that
`incrementDailyAction` stores for today's counts; `{ feed: 3, play: 0 }` gives
hunger 100 and happiness 0, and `{ feed: 6, play: 0 }` gives hunger 100. -/
theorem computeStats_hunger_happiness (counts : DayCounts) (preferences : Prefs)
    (todayCounts delta : Counts) (groom rest interact : Int) :
    (LeftSidebar.computeStats counts).hunger = specPercent counts.feed ∧
      (LeftSidebar.computeStats counts).happiness = specPercent counts.play ∧
      getProp (newStatsOf preferences todayCounts delta) "hunger" =
        JsVal.num (specPercent (countOf todayCounts "feed")) ∧
      getProp (newStatsOf preferences todayCounts delta) "happiness" =
        JsVal.num (specPercent (countOf todayCounts "play")) ∧
      (LeftSidebar.computeStats
        { feed := 3, play := 0, groom := groom, rest := rest, interact := interact }).hunger =
        100 ∧
      (LeftSidebar.computeStats
        { feed := 3, play := 0, groom := groom, rest := rest, interact := interact }).happiness =
        0 ∧
      (LeftSidebar.computeStats
        { feed := 6, play := 0, groom := groom, rest := rest, interact := interact }).hunger =
        100 := by
  have hn := newStatsOf_fields preferences todayCounts delta
  refine ⟨?_, ?_, ?_, ?_, ?_, ?_, ?_⟩
  · simp [LeftSidebar.computeStats, specPercent, roundPercent_eq_roundHalfUp]
  · simp [LeftSidebar.computeStats, specPercent, roundPercent_eq_roundHalfUp]
  · rw [hn.1, specPercent, roundPercent_eq_roundHalfUp]
  · rw [hn.2.1, specPercent, roundPercent_eq_roundHalfUp]
  · rfl
  · rfl
  · rfl

theorem countOf_nonneg (counts : Counts) (h : countsNonneg counts) (k : String) :
    0 ≤ countOf counts k := by
  induction counts with
  | nil => simp [countOf, assocGet]
  | cons e rest ih =>
    obtain ⟨k1, v⟩ := e
    have hrest : countsNonneg rest := fun kv hkv => h kv (List.mem_cons_of_mem _ hkv)
    by_cases hk : k1 = k
    · have : 0 ≤ v := h (k1, v) (List.mem_cons_self _ _)
      simpa [countOf, assocGet, hk] using this
    · simpa [countOf, assocGet, hk] using ih hrest

theorem roundPercent_nonneg (count : Int) (h : 0 ≤ count) : 0 ≤ roundPercent count := by
  unfold roundPercent
  omega

/-- C12: for non-negative integer counts (and a previously stored xp in
[0, 100]) each of hunger, happiness, energy, love and xp lies in [0, 100], for
`computeStats` of LeftSidebar, for `computeStats` of MainContent and for the
stats object that `incrementDailyAction` writes. -/
theorem stats_in_range (counts : DayCounts) (log : Counts) (preferences : Prefs)
    (todayCounts delta : Counts)
    (hcounts : 0 ≤ counts.feed ∧ 0 ≤ counts.play ∧ 0 ≤ counts.groom ∧ 0 ≤ counts.rest ∧
      0 ≤ counts.interact)
    (hlog : countsNonneg log) (htoday : countsNonneg todayCounts)
    (hxp : ∀ x, getProp preferences.stats "xp" = JsVal.num x → inStatRange x) :
    (inStatRange (LeftSidebar.computeStats counts).hunger ∧
      inStatRange (LeftSidebar.computeStats counts).happiness ∧
      inStatRange (LeftSidebar.computeStats counts).energy ∧
      inStatRange (LeftSidebar.computeStats counts).love ∧
      inStatRange (LeftSidebar.computeStats counts).xp) ∧
    (inStatRange (MainContent.computeStats log).hunger ∧
      inStatRange (MainContent.computeStats log).happiness ∧
      inStatRange (MainContent.computeStats log).energy ∧
      inStatRange (MainContent.computeStats log).love ∧
      inStatRange (MainContent.computeStats log).xp) ∧
    (∀ field ∈ ["hunger", "happiness", "energy", "love", "xp"],
      ∃ v, getProp (newStatsOf preferences todayCounts delta) field = JsVal.num v ∧
        inStatRange v) := by
  obtain ⟨h1, h2, h3, h4, h5⟩ := hcounts
  have hf := roundPercent_nonneg counts.feed h1
  have hp := roundPercent_nonneg counts.play h2
  have lf := countOf_nonneg log hlog "feed"
  have lp := countOf_nonneg log hlog "play"
  have lg := countOf_nonneg log hlog "groom"
  have lr := countOf_nonneg log hlog "rest"
  have tf := roundPercent_nonneg _ (countOf_nonneg todayCounts htoday "feed")
  have tp := roundPercent_nonneg _ (countOf_nonneg todayCounts htoday "play")
  have ti := countOf_nonneg todayCounts htoday "interact"
  have tr := countOf_nonneg todayCounts htoday "rest"
  have tg := countOf_nonneg todayCounts htoday "groom"
  obtain ⟨n1, n2, n3, n4, n5⟩ := newStatsOf_fields preferences todayCounts delta
  refine ⟨?_, ?_, ?_⟩
  · simp only [LeftSidebar.computeStats, inStatRange]
    omega
  · simp only [MainContent.computeStats, inStatRange]
    omega
  · intro field hfield
    simp only [List.mem_cons, List.mem_singleton, List.not_mem_nil, or_false] at hfield
    rcases hfield with e | e | e | e | e <;> subst e
    · exact ⟨_, n1, by unfold inStatRange; omega⟩
    · exact ⟨_, n2, by unfold inStatRange; omega⟩
    · exact ⟨_, n3, by unfold inStatRange; omega⟩
    · exact ⟨_, n4, by unfold inStatRange; omega⟩
    · refine ⟨_, n5, ?_⟩
      have hprev : 0 ≤ (match getProp preferences.stats "xp" with
          | JsVal.num x => x
          | _ => 0) ∧ (match getProp preferences.stats "xp" with
          | JsVal.num x => x
          | _ => 0) ≤ 100 := by
        cases hx : getProp preferences.stats "xp" with
        | num x => exact hxp x hx
        | _ => simp
      unfold inStatRange
      omega

theorem foldl_count_eq (p : Nat → Bool) :
    ∀ (l : List Nat) (a : Int),
      l.foldl (fun success i => if p i = true then success + 1 else success) a =
        a + ((l.filter p).length : Int)
  | [], a => by simp
  | i :: rest, a => by
    simp only [List.foldl_cons]
    rw [foldl_count_eq p rest]
    by_cases h : p i = true
    · simp [h, List.filter_cons]
      omega
    · simp [h, List.filter_cons]

theorem streakDay_meets (preferences : Prefs) (dayKey : Nat → String) (i : Nat) :
    (countOf (LeftSidebar.streakDay preferences dayKey i) "feed" ≥ 3 ∧
      countOf (LeftSidebar.streakDay preferences dayKey i) "play" ≥ 3) ↔
      specDayMeetsTargets preferences dayKey i = true := by
  unfold LeftSidebar.streakDay specDayMeetsTargets
  by_cases h : i = 0
  · simp [h, countOf, assocGet]
  · simp [h]

/-- The loop of `computeStreak` counts the offsets whose day, read at the key
the code computes for the offset, meets the spec's criterion. -/
theorem computeStreak_eq (tz : TimeZone) (now : Int) (preferences : Prefs) :
    LeftSidebar.computeStreak tz now preferences =
      roundOfThirty (specSuccessDays preferences (LeftSidebar.streakKey tz now)) := by
  unfold LeftSidebar.computeStreak specSuccessDays
  simp only
  have h : ∀ (l : List Nat) (a : Int),
      l.foldl (fun success i =>
        if countOf (LeftSidebar.streakDay preferences (LeftSidebar.streakKey tz now) i) "feed" ≥ 3 ∧
            countOf (LeftSidebar.streakDay preferences (LeftSidebar.streakKey tz now) i) "play" ≥ 3
        then success + 1
        else success) a =
      l.foldl (fun success i =>
        if specDayMeetsTargets preferences (LeftSidebar.streakKey tz now) i = true then success + 1
        else success) a := by
    intro l
    induction l with
    | nil => intro a; rfl
    | cons i rest ih =>
      intro a
      simp only [List.foldl_cons]
      rw [ih]
      congr 1
      by_cases hm : specDayMeetsTargets preferences (LeftSidebar.streakKey tz now) i = true
      · rw [if_pos hm, if_pos ((streakDay_meets preferences _ i).mpr hm)]
      · rw [if_neg hm, if_neg (fun hc => hm ((streakDay_meets preferences _ i).mp hc))]
  rw [h, foldl_count_eq]
  simp

theorem specSuccessDays_le (preferences : Prefs) (dayKey : Nat → String) :
    specSuccessDays preferences dayKey ≤ 30 := by
  unfold specSuccessDays
  calc ((List.range 30).filter (specDayMeetsTargets preferences dayKey)).length
      ≤ (List.range 30).length := List.length_filter_le _ _
    _ = 30 := List.length_range 30

/-- In every time zone and at every instant the result of `computeStreak` lies
in [0, 100]. -/
theorem computeStreak_in_range (tz : TimeZone) (now : Int) (preferences : Prefs) :
    0 ≤ LeftSidebar.computeStreak tz now preferences ∧
      LeftSidebar.computeStreak tz now preferences ≤ 100 := by
  have he := computeStreak_eq tz now preferences
  have hle := specSuccessDays_le preferences (LeftSidebar.streakKey tz now)
  rw [he]
  unfold roundOfThirty
  omega

/-! ## Day keys -/

theorem civil_steps (z era d1 n100 d2 n4 d3 n1 doy mp : Int)
    (h1 : era = (z + 719468) / 146097) (h2 : d1 = z + 719468 - era * 146097)
    (h3 : n100 = min (d1 / 36524) 3) (h4 : d2 = d1 - n100 * 36524) (h5 : n4 = d2 / 1461)
    (h6 : d3 = d2 - n4 * 1461) (h7 : n1 = min (d3 / 365) 3) (h8 : doy = d3 - n1 * 365)
    (h9 : mp = (5 * doy + 2) / 153) :
    (0 ≤ n100 ∧ n100 ≤ 3) ∧ (0 ≤ n4 ∧ n4 ≤ 24) ∧ (0 ≤ n1 ∧ n1 ≤ 3) ∧ (0 ≤ doy ∧ doy ≤ 365) ∧
      (0 ≤ mp ∧ mp ≤ 11) ∧
      z + 719468 = era * 146097 + n100 * 36524 + n4 * 1461 + n1 * 365 + doy := by
  have a1 : 0 ≤ d1 ∧ d1 ≤ 146096 := by omega
  have a2 : 0 ≤ n100 ∧ n100 ≤ 3 := by omega
  have a3 : 0 ≤ d2 ∧ d2 ≤ 36524 := by omega
  have a4 : 0 ≤ n4 ∧ n4 ≤ 24 := by omega
  have a5 : 0 ≤ d3 ∧ d3 ≤ 1460 := by omega
  have a6 : 0 ≤ n1 ∧ n1 ≤ 3 := by omega
  have a7 : 0 ≤ doy ∧ doy ≤ 365 := by omega
  have a8 : 0 ≤ mp ∧ mp ≤ 11 := by omega
  refine ⟨a2, a4, a6, a7, a8, ?_⟩
  omega

theorem daysFromCivil_mk (era n100 n4 n1 doy mp : Int)
    (a2 : 0 ≤ n100 ∧ n100 ≤ 3) (a4 : 0 ≤ n4 ∧ n4 ≤ 24) (a6 : 0 ≤ n1 ∧ n1 ≤ 3)
    (a8 : 0 ≤ mp ∧ mp ≤ 11) (_a7 : 0 ≤ doy ∧ doy ≤ 365) :
    daysFromCivil
      { year := if (if mp < 10 then mp + 3 else mp - 9) ≤ 2 then
            era * 400 + n100 * 100 + n4 * 4 + n1 + 1
          else era * 400 + n100 * 100 + n4 * 4 + n1,
        month := if mp < 10 then mp + 3 else mp - 9,
        day := doy - (153 * mp + 2) / 5 + 1 } =
      era * 146097 + n100 * 36524 + n4 * 1461 + n1 * 365 + doy - 719468 := by
  simp only [daysFromCivil]
  by_cases hm : mp < 10
  · have e1 : ¬ (mp + 3 ≤ 2) := by omega
    simp only [hm, if_true, e1, if_false]
    have e2 : (era * 400 + n100 * 100 + n4 * 4 + n1) / 400 = era := by omega
    rw [e2]
    omega
  · have e1 : mp - 9 ≤ 2 := by omega
    simp only [hm, if_false, e1, if_true]
    have e2 : (era * 400 + n100 * 100 + n4 * 4 + n1 + 1 - 1) / 400 = era := by omega
    rw [e2]
    omega

/-- The day number is recovered from its calendar date. -/
theorem daysFromCivil_civilFromDays (z : Int) : daysFromCivil (civilFromDays z) = z := by
  obtain ⟨a2, a4, a6, a7, a8, hz⟩ :=
    civil_steps z ((z + 719468) / 146097) _ _ _ _ _ _ _ _ rfl rfl rfl rfl rfl rfl rfl rfl rfl
  have e := daysFromCivil_mk ((z + 719468) / 146097) _ _ _ _ _ a2 a4 a6 a8 a7
  unfold civilFromDays
  simp only
  rw [e]
  omega

theorem civilFromDays_injective (z w : Int) (h : civilFromDays z = civilFromDays w) : z = w := by
  rw [← daysFromCivil_civilFromDays z, ← daysFromCivil_civilFromDays w, h]

/-- Months run from 1 to 12 and days from 1 to 31. -/
theorem civilFromDays_range (z : Int) :
    1 ≤ (civilFromDays z).month ∧ (civilFromDays z).month ≤ 12 ∧
      1 ≤ (civilFromDays z).day ∧ (civilFromDays z).day ≤ 31 := by
  obtain ⟨_, _, _, a7, a8, _⟩ :=
    civil_steps z ((z + 719468) / 146097) _ _ _ _ _ _ _ _ rfl rfl rfl rfl rfl rfl rfl rfl rfl
  unfold civilFromDays
  simp only
  split <;> omega

theorem digitChar_inj : ∀ a < 10, ∀ b < 10, digitChar a = digitChar b → a = b := by
  decide

theorem pad2_inj (a b : Int) (ha : 0 ≤ a ∧ a ≤ 99) (hb : 0 ≤ b ∧ b ≤ 99)
    (h : pad2 a = pad2 b) : a = b := by
  simp only [pad2, List.cons.injEq, and_true] at h
  have h1 := digitChar_inj _ (by omega) _ (by omega) h.1
  have h2 := digitChar_inj _ (by omega) _ (by omega) h.2
  omega

theorem pad4_inj (a b : Int) (ha : 0 ≤ a ∧ a ≤ 9999) (hb : 0 ≤ b ∧ b ≤ 9999)
    (h : pad4 a = pad4 b) : a = b := by
  simp only [pad4, List.cons.injEq, and_true] at h
  have h1 := digitChar_inj _ (by omega) _ (by omega) h.1
  have h2 := digitChar_inj _ (by omega) _ (by omega) h.2.1
  have h3 := digitChar_inj _ (by omega) _ (by omega) h.2.2.1
  have h4 := digitChar_inj _ (by omega) _ (by omega) h.2.2.2
  omega

theorem dateChars_inj (c1 c2 : CivilDate)
    (h1 : 0 ≤ c1.year ∧ c1.year ≤ 9999 ∧ 0 ≤ c1.month ∧ c1.month ≤ 99 ∧ 0 ≤ c1.day ∧ c1.day ≤ 99)
    (h2 : 0 ≤ c2.year ∧ c2.year ≤ 9999 ∧ 0 ≤ c2.month ∧ c2.month ≤ 99 ∧ 0 ≤ c2.day ∧ c2.day ≤ 99)
    (h : pad4 c1.year ++ '-' :: pad2 c1.month ++ '-' :: pad2 c1.day =
      pad4 c2.year ++ '-' :: pad2 c2.month ++ '-' :: pad2 c2.day) : c1 = c2 := by
  obtain ⟨y1, m1, d1⟩ := c1
  obtain ⟨y2, m2, d2⟩ := c2
  simp only at h1 h2 h
  have hy : pad4 y1 = pad4 y2 := by
    simp only [pad4, pad2, List.cons_append, List.nil_append, List.cons.injEq] at h ⊢
    exact ⟨h.1, h.2.1, h.2.2.1, h.2.2.2.1, trivial⟩
  have hm : pad2 m1 = pad2 m2 := by
    simp only [pad4, pad2, List.cons_append, List.nil_append, List.cons.injEq] at h ⊢
    exact ⟨h.2.2.2.2.2.1, h.2.2.2.2.2.2.1, trivial⟩
  have hd : pad2 d1 = pad2 d2 := by
    simp only [pad4, pad2, List.cons_append, List.nil_append, List.cons.injEq] at h ⊢
    exact ⟨h.2.2.2.2.2.2.2.2.1, h.2.2.2.2.2.2.2.2.2.1, trivial⟩
  rw [pad4_inj y1 y2 ⟨h1.1, h1.2.1⟩ ⟨h2.1, h2.2.1⟩ hy,
    pad2_inj m1 m2 ⟨h1.2.2.1, h1.2.2.2.1⟩ ⟨h2.2.2.1, h2.2.2.2.1⟩ hm,
    pad2_inj d1 d2 ⟨h1.2.2.2.2.1, h1.2.2.2.2.2⟩ ⟨h2.2.2.2.2.1, h2.2.2.2.2.2⟩ hd]

/-- Within the years 0 to 9999 the day key determines the UTC day. -/
theorem isoDateKey_injective (z w : Int)
    (hz : 0 ≤ (civilFromDays z).year ∧ (civilFromDays z).year ≤ 9999)
    (hw : 0 ≤ (civilFromDays w).year ∧ (civilFromDays w).year ≤ 9999)
    (h : isoDateKey z = isoDateKey w) : z = w := by
  obtain ⟨rz1, rz2, rz3, rz4⟩ := civilFromDays_range z
  obtain ⟨rw1, rw2, rw3, rw4⟩ := civilFromDays_range w
  apply civilFromDays_injective
  have hk : isoDateKey z = String.mk (pad4 (civilFromDays z).year ++
      '-' :: pad2 (civilFromDays z).month ++ '-' :: pad2 (civilFromDays z).day) := by
    unfold isoDateKey
    simp only [hz, and_self, if_true]
  have hk2 : isoDateKey w = String.mk (pad4 (civilFromDays w).year ++
      '-' :: pad2 (civilFromDays w).month ++ '-' :: pad2 (civilFromDays w).day) := by
    unfold isoDateKey
    simp only [hw, and_self, if_true]
  rw [hk, hk2] at h
  have hl := congrArg String.data h
  simp only at hl
  generalize civilFromDays z = cz at *
  generalize civilFromDays w = cw at *
  exact dateChars_inj cz cw ⟨hz.1, hz.2, by omega, by omega, by omega, by omega⟩
    ⟨hw.1, hw.2, by omega, by omega, by omega, by omega⟩ hl

/-- C12 (instance): counts `{ feed: 3, play: 1, groom: 0, rest: 2, interact: 4 }`,
a daily log `{ feed: 3, play: 1 }`, stored xp 20, today's counts `{ feed: 2 }`. -/
theorem stats_in_range_witness :
    (inStatRange
        (LeftSidebar.computeStats
          { feed := 3, play := 1, groom := 0, rest := 2, interact := 4 }).hunger ∧
      inStatRange
        (LeftSidebar.computeStats
          { feed := 3, play := 1, groom := 0, rest := 2, interact := 4 }).happiness ∧
      inStatRange
        (LeftSidebar.computeStats
          { feed := 3, play := 1, groom := 0, rest := 2, interact := 4 }).energy ∧
      inStatRange
        (LeftSidebar.computeStats
          { feed := 3, play := 1, groom := 0, rest := 2, interact := 4 }).love ∧
      inStatRange
        (LeftSidebar.computeStats
          { feed := 3, play := 1, groom := 0, rest := 2, interact := 4 }).xp) ∧
    (inStatRange (MainContent.computeStats [("feed", 3), ("play", 1)]).hunger ∧
      inStatRange (MainContent.computeStats [("feed", 3), ("play", 1)]).happiness ∧
      inStatRange (MainContent.computeStats [("feed", 3), ("play", 1)]).energy ∧
      inStatRange (MainContent.computeStats [("feed", 3), ("play", 1)]).love ∧
      inStatRange (MainContent.computeStats [("feed", 3), ("play", 1)]).xp) ∧
    (∀ field ∈ ["hunger", "happiness", "energy", "love", "xp"],
      ∃ v, getProp (newStatsOf statsSamplePrefs [("feed", 2)] [("feed", 1)]) field =
          JsVal.num v ∧ inStatRange v) :=
  stats_in_range { feed := 3, play := 1, groom := 0, rest := 2, interact := 4 }
    [("feed", 3), ("play", 1)] statsSamplePrefs
    [("feed", 2)] [("feed", 1)] (by decide) (by decide) (by decide)
    (by
      intro x hx
      have h20 : getProp statsSamplePrefs.stats "xp" = JsVal.num 20 := rfl
      rw [h20] at hx
      cases hx
      decide)

/-- C14 (as stated, fails): for a caller at UTC+05:30 the instants 23:59:59 on
2025-01-01 and 00:00:01 on 2025-01-02 (local time) have the local dates
2025-01-01 and 2025-01-02, but `toISOString` prints the UTC date and both get
the day key `2025-01-01`. -/
theorem todayKey_not_local_date :
    localDateKey 1735756199000 330 = "2025-01-01" ∧
      localDateKey 1735756201000 330 = "2025-01-02" ∧
      todayKey 1735756199000 = "2025-01-01" ∧
      todayKey 1735756201000 = "2025-01-01" := by
  decide

/-- C14 (amended): for instants in the years 0 to 9999 the day key is the UTC
calendar date of the instant, formatted `YYYY-MM-DD`, whatever the caller's
timezone offset; it is the caller's local calendar date exactly when the local
day and the UTC day coincide; and increments at 23:59:59 and 00:00:01 UTC on
consecutive UTC days get two distinct day keys. -/
theorem todayKey_utc_date (now offsetMinutes d : Int)
    (hnow : 0 ≤ (civilFromDays (now / 86400000)).year ∧
      (civilFromDays (now / 86400000)).year ≤ 9999)
    (hlocal : 0 ≤ (civilFromDays ((now + offsetMinutes * 60000) / 86400000)).year ∧
      (civilFromDays ((now + offsetMinutes * 60000) / 86400000)).year ≤ 9999)
    (hd : 0 ≤ (civilFromDays d).year ∧ (civilFromDays d).year ≤ 9999)
    (hd1 : 0 ≤ (civilFromDays (d + 1)).year ∧ (civilFromDays (d + 1)).year ≤ 9999) :
    todayKey now = localDateKey now 0 ∧
      (todayKey now = localDateKey now offsetMinutes ↔
        now / 86400000 = (now + offsetMinutes * 60000) / 86400000) ∧
      todayKey (d * 86400000 + 86399000) ≠ todayKey ((d + 1) * 86400000 + 1000) := by
  refine ⟨?_, ?_, ?_⟩
  · simp [todayKey, localDateKey]
  · unfold todayKey localDateKey
    constructor
    · exact isoDateKey_injective _ _ hnow hlocal
    · intro h
      rw [h]
  · unfold todayKey
    have e1 : (d * 86400000 + 86399000) / 86400000 = d := by omega
    have e2 : ((d + 1) * 86400000 + 1000) / 86400000 = d + 1 := by omega
    rw [e1, e2]
    intro h
    have := isoDateKey_injective _ _ hd hd1 h
    omega

/-- C14 (instance): the instant 2025-01-01T18:30:01Z, a caller at UTC+05:30,
and the rollover from 2025-01-01 to 2025-01-02. -/
theorem todayKey_utc_date_witness :
    todayKey 1735756201000 = localDateKey 1735756201000 0 ∧
      (todayKey 1735756201000 = localDateKey 1735756201000 330 ↔
        (1735756201000 : Int) / 86400000 = (1735756201000 + 330 * 60000) / 86400000) ∧
      todayKey (20089 * 86400000 + 86399000) ≠ todayKey ((20089 + 1) * 86400000 + 1000) :=
  todayKey_utc_date 1735756201000 330 20089 (by decide) (by decide) (by decide) (by decide)

/-! ## The keys of `computeStreak` -/

theorem daysFromCivil_day (c : CivilDate) (date : Int) :
    daysFromCivil { c with day := date } = daysFromCivil c + (date - c.day) := by
  simp only [daysFromCivil]
  omega

/-- In a zone at a constant offset `setDate(getDate() - i)` moves the instant
back by exactly `i` days. -/
theorem setDate_fixedZone (offsetMinutes now : Int) (i : Nat) :
    setDate (fixedZone offsetMinutes) now (getDate (fixedZone offsetMinutes) now - (i : Int)) =
      now - (i : Int) * 86400000 := by
  unfold setDate getDate localTime utcTime fixedZone
  simp only
  rw [daysFromCivil_day, daysFromCivil_civilFromDays]
  omega

/-- In a zone at a constant offset the key computed for the offset `i` is the
key of the day `i` days before today. -/
theorem streakKey_fixedZone (offsetMinutes now : Int) (i : Nat) :
    LeftSidebar.streakKey (fixedZone offsetMinutes) now i = specTrailingKey now i := by
  unfold LeftSidebar.streakKey specTrailingKey todayKey
  rw [setDate_fixedZone]
  congr 1
  omega

/-- In a time zone at a constant offset from UTC `computeStreak` returns
`round(s / 30 * 100)` for the number `s` of the 30 trailing days that meet
feed ≥ 3 and play ≥ 3 (today from `dailyLog`, the day at every other offset
from `dailyHistory` at that day's key, missing days counting as zero), and 50
when exactly 15 of the 30 days meet both targets. -/
theorem computeStreak_fixed_zone (offsetMinutes now : Int) (preferences : Prefs) :
    LeftSidebar.computeStreak (fixedZone offsetMinutes) now preferences =
        roundHalfUp ((specSuccessDays preferences (specTrailingKey now) : ℚ) / 30 * 100) ∧
      (specSuccessDays preferences (specTrailingKey now) = 15 →
        LeftSidebar.computeStreak (fixedZone offsetMinutes) now preferences = 50) := by
  have hk : LeftSidebar.streakKey (fixedZone offsetMinutes) now = specTrailingKey now :=
    funext (streakKey_fixedZone offsetMinutes now)
  have he := computeStreak_eq (fixedZone offsetMinutes) now preferences
  rw [hk] at he
  refine ⟨?_, ?_⟩
  · rw [he, roundOfThirty_eq_roundHalfUp, Int.cast_natCast]
  · intro h15
    rw [he, h15]
    rfl

/-- At noon UTC on 2025-01-31, for a caller at UTC+05:30, a history in which
the 15 days at the odd offsets meet both targets, and today does not, gives the
streak 50. -/
theorem computeStreak_fixed_zone_sample :
    specSuccessDays streakSamplePrefs (specTrailingKey sampleNow) = 15 ∧
      LeftSidebar.computeStreak (fixedZone 330) sampleNow streakSamplePrefs = 50 :=
  ⟨by decide, (computeStreak_fixed_zone 330 sampleNow streakSamplePrefs).2 (by decide)⟩

/-- C13 (fails on the code): in Berlin at 01:30 on 2025-03-31, which is 23:30
UTC on 2025-03-30, the day the clocks went forward, `setDate` moves the instant
back by only 23 hours at offset 1.  The offsets 0 and 1 both get today's key
`2025-03-30`, the day before today is at offset 2, and the 30 offsets reach 29
days, down to 2025-03-02, not the 30th trailing day 2025-03-01.  After three
feeds and three plays today, with nothing on the days before, today's history
entry is counted again at offset 1: `computeStreak` returns 7, while one
successful day among the 30 trailing days gives `round(1 / 30 * 100) = 3`. -/
theorem computeStreak_counts_today_twice_after_dst :
    todayKey dstNow = "2025-03-30" ∧
      LeftSidebar.streakKey europeBerlin2025 dstNow 0 = "2025-03-30" ∧
      LeftSidebar.streakKey europeBerlin2025 dstNow 1 = "2025-03-30" ∧
      specTrailingKey dstNow 1 = "2025-03-29" ∧
      LeftSidebar.streakKey europeBerlin2025 dstNow 29 = "2025-03-02" ∧
      specTrailingKey dstNow 29 = "2025-03-01" ∧
      ((List.range 30).map (LeftSidebar.streakKey europeBerlin2025 dstNow)).dedup.length = 29 ∧
      assocGet dstCache.dailyHistory (todayKey dstNow) = some dstCache.dailyLog ∧
      specSuccessDays dstCache (specTrailingKey dstNow) = 1 ∧
      roundHalfUp ((specSuccessDays dstCache (specTrailingKey dstNow) : ℚ) / 30 * 100) = 3 ∧
      LeftSidebar.computeStreak europeBerlin2025 dstNow dstCache = 7 := by
  have hs : specSuccessDays dstCache (specTrailingKey dstNow) = 1 := by decide
  refine ⟨by decide, by decide, by decide, by decide, by decide, by decide, by decide, by decide,
    hs, ?_, ?_⟩
  · rw [hs, ← Int.cast_natCast, ← roundOfThirty_eq_roundHalfUp]
    rfl
  · rw [computeStreak_eq]
    have h2 : specSuccessDays dstCache (LeftSidebar.streakKey europeBerlin2025 dstNow) = 2 := by
      decide
    rw [h2]
    rfl

/-! ## `createUser` -/

theorem assocGet_spread_of_not_mem {α : Type} (k : String) :
    ∀ (b a : List (String × α)), k ∉ b.map Prod.fst → assocGet (spread a b) k = assocGet a k
  | [], _, _ => rfl
  | e :: rest, a, h => by
    have h1 : e.1 ≠ k := fun e1 => h (by simp [e1])
    have h2 : k ∉ rest.map Prod.fst := fun m => h (by simp [m])
    have ih := assocGet_spread_of_not_mem k rest (assocSet a e.1 e.2) h2
    unfold spread at ih ⊢
    simp only [List.foldl_cons]
    rw [ih, assocGet_assocSet_ne _ _ _ _ h1]

/-- When `extra` has no `preferences` property, the user document carries the
zero-valued default preferences. -/
theorem createUserDoc_default_preferences
    (trimmedUsername id trimmedPetName hashed createdAt : String) (extra : Fields)
    (h : "preferences" ∉ extra.map Prod.fst) :
    getProp (createUserDoc trimmedUsername id trimmedPetName hashed createdAt extra)
      "preferences" = JsVal.obj defaultPreferences := by
  unfold createUserDoc getProp
  rw [assocGet_spread_of_not_mem "preferences" extra _ h]
  rfl

/-- C15 (fails on the code): with the `extra` argument of the sign-up flow,
`{ preferences: { currentModel, selectedPet } }`, the spread `...extra`
replaces the whole `preferences` object: the document written has
`preferences.currentModel` and `preferences.selectedPet` but no
`preferences.dailyLog`, `preferences.dailyHistory` or `preferences.stats`. -/
theorem createUser_extra_preferences_drop_defaults :
    (createUser "Bob" "bob" "Rex" (Except.ok "hash") "2025-01-01T00:00:00.000Z"
        (signUpExtra dogModel) none emptyStore).1.ok = true ∧
      (createUser "Bob" "bob" "Rex" (Except.ok "hash") "2025-01-01T00:00:00.000Z"
        (signUpExtra dogModel) none emptyStore).2.read "preferences" =
        JsVal.obj [("currentModel", dogModel), ("selectedPet", JsVal.str "dog")] ∧
      (createUser "Bob" "bob" "Rex" (Except.ok "hash") "2025-01-01T00:00:00.000Z"
        (signUpExtra dogModel) none emptyStore).2.read "preferences.dailyLog" = JsVal.undef ∧
      (createUser "Bob" "bob" "Rex" (Except.ok "hash") "2025-01-01T00:00:00.000Z"
        (signUpExtra dogModel) none emptyStore).2.read "preferences.dailyLog.feed" =
        JsVal.undef ∧
      (createUser "Bob" "bob" "Rex" (Except.ok "hash") "2025-01-01T00:00:00.000Z"
        (signUpExtra dogModel) none emptyStore).2.read "preferences.dailyHistory" =
        JsVal.undef ∧
      (createUser "Bob" "bob" "Rex" (Except.ok "hash") "2025-01-01T00:00:00.000Z"
        (signUpExtra dogModel) none emptyStore).2.read "preferences.stats" = JsVal.undef :=
  ⟨rfl, rfl, rfl, rfl, rfl, rfl⟩

/-! ## Subscription handlers and the cache -/

theorem persistCurrentModel_frame (sf : StorageFaults) (prefs : JsVal) (s : HookState) :
    (persistCurrentModel sf prefs s).preferences = s.preferences ∧
      (persistCurrentModel sf prefs s).user = s.user ∧
      (persistCurrentModel sf prefs s).loading = s.loading := by
  unfold persistCurrentModel
  split
  · split
    · exact ⟨rfl, rfl, rfl⟩
    · simp only
      split <;> exact ⟨rfl, rfl, rfl⟩
  · split
    · split <;> exact ⟨rfl, rfl, rfl⟩
    · exact ⟨rfl, rfl, rfl⟩

theorem onSnapshotNext_preferences (username : Option String) (sf : StorageFaults)
    (data : Fields) (s : HookState) :
    (onSnapshotNext username sf (some data) s).preferences =
      (getProp data "preferences").or (JsVal.obj []) := by
  unfold onSnapshotNext
  simp only
  exact (persistCurrentModel_frame sf _ _).1

/-- C16: after a push of an existing document the cache is
`data.preferences || {}`: the pushed `preferences` object when there is one,
the empty object when the document has no `preferences`; it does not depend on
the state before the push. -/
theorem onSnapshotNext_replaces_cache (username : Option String) (sf : StorageFaults)
    (data : Fields) (s s' : HookState) :
    (onSnapshotNext username sf (some data) s).preferences =
        (getProp data "preferences").or (JsVal.obj []) ∧
      (onSnapshotNext username sf (some data) s).preferences =
        (onSnapshotNext username sf (some data) s').preferences ∧
      (∀ fs, getProp data "preferences" = JsVal.obj fs →
        (onSnapshotNext username sf (some data) s).preferences = JsVal.obj fs) ∧
      (getProp data "preferences" = JsVal.undef →
        (onSnapshotNext username sf (some data) s).preferences = JsVal.obj []) := by
  refine ⟨onSnapshotNext_preferences username sf data s, ?_, ?_, ?_⟩
  · rw [onSnapshotNext_preferences, onSnapshotNext_preferences]
  · intro fs h
    rw [onSnapshotNext_preferences, h]
    rfl
  · intro h
    rw [onSnapshotNext_preferences, h]
    rfl

/-- C16 (instance): a push of `pushedDoc` onto a stale cache, and a push of a
document without `preferences`. -/
theorem onSnapshotNext_replaces_cache_witness :
    (onSnapshotNext (some "bob") { sessionSetItem := false, localSetItem := false }
        (some pushedDoc) staleHook).preferences =
        JsVal.obj [("dailyLog", JsVal.obj [("feed", JsVal.num 2)])] ∧
      (onSnapshotNext (some "bob") { sessionSetItem := false, localSetItem := false }
        (some [("username", JsVal.str "bob")]) staleHook).preferences = JsVal.obj [] :=
  ⟨(onSnapshotNext_replaces_cache (some "bob") { sessionSetItem := false, localSetItem := false }
      pushedDoc staleHook staleHook).2.2.1 _ rfl,
    (onSnapshotNext_replaces_cache (some "bob") { sessionSetItem := false, localSetItem := false }
      [("username", JsVal.str "bob")] staleHook staleHook).2.2.2 rfl⟩

/-- C17: the error handler of the subscription sets `loading` to false and
leaves the cached preferences, the user info and the storages as they were. -/
theorem onSnapshotError_keeps_cache (s : HookState) :
    (onSnapshotError s).loading = false ∧
      (onSnapshotError s).preferences = s.preferences ∧
      (onSnapshotError s).user = s.user ∧
      (onSnapshotError s).sessionStorage = s.sessionStorage ∧
      (onSnapshotError s).localStorage = s.localStorage :=
  ⟨rfl, rfl, rfl, rfl, rfl⟩

/-- C18: a call of `updatePreferences` leaves the hook state, and so the cached
preferences, as it was, for every request, every store and every way the store
calls end, with or without a logged-in user; its result is the one computed
from the store alone. -/
theorem updatePreferences_keeps_cache (userDocRef : Option String) (faults : Faults)
    (newPrefs : Fields) (w : World) :
    (World.updatePreferences userDocRef faults newPrefs w).2.hook = w.hook ∧
      (World.updatePreferences userDocRef faults newPrefs w).2.hook.preferences =
        w.hook.preferences ∧
      (World.updatePreferences userDocRef faults newPrefs w).1 =
        (updatePreferences userDocRef faults newPrefs w.store).1 ∧
      (World.updatePreferences userDocRef faults newPrefs w).2.store =
        (updatePreferences userDocRef faults newPrefs w.store).2 :=
  ⟨rfl, rfl, rfl, rfl⟩

/-! ## Results of `updatePreferences` -/

theorem caught_shape (message : String) :
    (caught message).ok = false ∧
      ∃ reason, (caught message).reason = some reason ∧ reason ≠ "" := by
  unfold caught
  refine ⟨rfl, _, rfl, ?_⟩
  split
  · decide
  · assumption

/-- C19: `updatePreferences` always returns a structured result, `{ ok: true }`
or `{ ok: false, reason }` with a non-empty reason; the result is `ok: false`
whenever a store operation it issued has failed, and `ok: true` exactly when a
user is logged in and no issued operation has failed. -/
theorem updatePreferences_resolves (userDocRef : Option String) (faults : Faults)
    (newPrefs : Fields) (store : Store) :
    (((updatePreferences userDocRef faults newPrefs store).1.ok = true ∧
        (updatePreferences userDocRef faults newPrefs store).1.reason = none) ∨
      ((updatePreferences userDocRef faults newPrefs store).1.ok = false ∧
        ∃ reason, (updatePreferences userDocRef faults newPrefs store).1.reason = some reason ∧
          reason ≠ "")) ∧
    (issuedOpFailed userDocRef faults newPrefs store = true →
      (updatePreferences userDocRef faults newPrefs store).1.ok = false) ∧
    ((updatePreferences userDocRef faults newPrefs store).1.ok = true ↔
      userDocRef ≠ none ∧ issuedOpFailed userDocRef faults newPrefs store = false) := by
  cases userDocRef with
  | none =>
    simp [updatePreferences, issuedOpFailed]
  | some username =>
    cases hg : faults.getDoc with
    | some msg =>
      have hc := caught_shape msg
      simp [updatePreferences, issuedOpFailed, hg, hc.1]
      exact hc.2
    | none =>
      cases hd : store.doc with
      | some d =>
        cases hu : faults.updateDoc with
        | some msg =>
          have hc := caught_shape msg
          simp [updatePreferences, issuedOpFailed, hg, hd, hu, hc.1]
          exact hc.2
        | none =>
          cases ha : applyPayload d (buildPayload newPrefs) with
          | some d1 => simp [updatePreferences, issuedOpFailed, hg, hd, hu, ha]
          | none =>
            have hc := caught_shape faults.invalidPayload
            simp [updatePreferences, issuedOpFailed, hg, hd, hu, ha, hc.1]
            exact hc.2
      | none =>
        cases hs : faults.setDoc with
        | some msg =>
          have hc := caught_shape msg
          simp [updatePreferences, issuedOpFailed, hg, hd, hs, hc.1]
          exact hc.2
        | none => simp [updatePreferences, issuedOpFailed, hg, hd, hs]

/-- C19 (instance): the read fails because the client is offline. -/
theorem updatePreferences_resolves_witness :
    issuedOpFailed (some "bob") offlineFaults (feedRequest 1) (feedStore 0) = true ∧
      (updatePreferences (some "bob") offlineFaults (feedRequest 1) (feedStore 0)).1.ok = false :=
  ⟨by decide,
    (updatePreferences_resolves (some "bob") offlineFaults (feedRequest 1) (feedStore 0)).2.1
      (by decide)⟩

/-- C20 (as stated, fails): with nobody logged in the reason is `no_user`, and
when the read fails the reason is the message of the store's error; neither is
one of `no_identity`, `store_unreachable`, `unknown`. -/
theorem updatePreferences_reason_not_spec_code :
    (updatePreferences none Faults.none (feedRequest 1) emptyStore).1 =
        { ok := false, reason := some "no_user" } ∧
      "no_user" ∉ specReasonCodes ∧
      (updatePreferences (some "bob") offlineFaults (feedRequest 1) (feedStore 0)).1 =
        { ok := false,
          reason := some "Failed to get document because the client is offline." } ∧
      "Failed to get document because the client is offline." ∉ specReasonCodes := by
  decide

/-- C20 (amended): the failure results of `updatePreferences`, case by case.
With nobody logged in the result is `{ ok: false, reason: "no_user" }`.
Otherwise the reason is the message of the error of the store operation that
failed, passed through unchanged, or `failed_to_update` when that message is
empty: the error of `getDoc` when the read fails; when the read succeeds and
the document exists, the error of `updateDoc` (its fault, or else the rejection
of a payload the store cannot apply); when the document does not exist, the
error of `setDoc`.  Every failure result is one of these cases. -/
theorem updatePreferences_failure_reason (userDocRef : Option String) (faults : Faults)
    (newPrefs : Fields) (store : Store) :
    (userDocRef = none →
        (updatePreferences userDocRef faults newPrefs store).1 =
          { ok := false, reason := some "no_user" }) ∧
      (∀ msg, userDocRef ≠ none → faults.getDoc = some msg →
        (updatePreferences userDocRef faults newPrefs store).1 =
          { ok := false, reason := some (if msg = "" then "failed_to_update" else msg) }) ∧
      (∀ d msg, userDocRef ≠ none → faults.getDoc = none → store.doc = some d →
        faults.updateDoc = some msg →
        (updatePreferences userDocRef faults newPrefs store).1 =
          { ok := false, reason := some (if msg = "" then "failed_to_update" else msg) }) ∧
      (∀ d, userDocRef ≠ none → faults.getDoc = none → store.doc = some d →
        faults.updateDoc = none → applyPayload d (buildPayload newPrefs) = none →
        (updatePreferences userDocRef faults newPrefs store).1 =
          { ok := false,
            reason := some (if faults.invalidPayload = "" then "failed_to_update"
              else faults.invalidPayload) }) ∧
      (∀ msg, userDocRef ≠ none → faults.getDoc = none → store.doc = none →
        faults.setDoc = some msg →
        (updatePreferences userDocRef faults newPrefs store).1 =
          { ok := false, reason := some (if msg = "" then "failed_to_update" else msg) }) ∧
      ((updatePreferences userDocRef faults newPrefs store).1.ok = false →
        userDocRef = none ∨ issuedOpFailed userDocRef faults newPrefs store = true) := by
  cases userDocRef with
  | none =>
    refine ⟨fun _ => rfl, ?_, ?_, ?_, ?_, fun _ => Or.inl rfl⟩
    · intro msg h; exact absurd rfl h
    · intro d msg h; exact absurd rfl h
    · intro d h; exact absurd rfl h
    · intro msg h; exact absurd rfl h
  | some username =>
    refine ⟨fun h => Option.noConfusion h, ?_, ?_, ?_, ?_, ?_⟩
    · intro msg _ hg
      simp [updatePreferences, hg, caught]
    · intro d msg _ hg hd hu
      simp [updatePreferences, hg, hd, hu, caught]
    · intro d _ hg hd hu ha
      simp [updatePreferences, hg, hd, hu, ha, caught]
    · intro msg _ hg hd hs
      simp [updatePreferences, hg, hd, hs, caught]
    · intro hok
      right
      cases hg : faults.getDoc with
      | some msg => simp [issuedOpFailed, hg]
      | none =>
        cases hd : store.doc with
        | some d =>
          cases hu : faults.updateDoc with
          | some msg => simp [issuedOpFailed, hg, hd, hu]
          | none =>
            cases ha : applyPayload d (buildPayload newPrefs) with
            | some d1 => simp [updatePreferences, hg, hd, hu, ha] at hok
            | none => simp [issuedOpFailed, hg, hd, hu, ha]
        | none =>
          cases hs : faults.setDoc with
          | some msg => simp [issuedOpFailed, hg, hd, hs]
          | none => simp [updatePreferences, hg, hd, hs] at hok

/-- C20 (instance): the read fails because the client is offline, and the
reason is the message of that error. -/
theorem updatePreferences_failure_reason_witness :
    ((some "bob" : Option String) ≠ none ∧
      offlineFaults.getDoc = some "Failed to get document because the client is offline.") ∧
    (updatePreferences (some "bob") offlineFaults (feedRequest 1) (feedStore 0)).1 =
      { ok := false,
        reason := some
          (if "Failed to get document because the client is offline." = "" then "failed_to_update"
            else "Failed to get document because the client is offline.") } :=
  ⟨⟨by decide, rfl⟩,
    (updatePreferences_failure_reason (some "bob") offlineFaults (feedRequest 1)
      (feedStore 0)).2.1 "Failed to get document because the client is offline."
      (by decide) rfl⟩

/-! ## Whole-field literal writes -/

/-- The branch taken for a field whose value has no increment-tagged leaf: one
whole-field literal write. -/
theorem processKey_plain (newPrefs : Fields) (payload : Payload) (key : String)
    (hplain : ∀ fs, getProp newPrefs key = JsVal.obj fs →
      ∀ nk ∈ fs.map Prod.fst, isIncLeaf (getProp fs nk) = false) :
    processKey newPrefs payload key =
      assocSet payload (fieldPath key) (Instr.lit (getProp newPrefs key)) := by
  unfold processKey
  simp only
  split
  · rename_i hobj
    cases hv : getProp newPrefs key with
    | obj fs =>
      have hno : ((fs.map Prod.fst).any fun nk => isIncLeaf (getProp fs nk)) = false := by
        rw [List.any_eq_false]
        intro nk hnk
        rw [hplain fs hv nk hnk]
        simp
      simp [keys, JsVal.get, hno]
    | _ => simp [hv, truthy, typeofObject, isArray] at hobj
  · rfl

theorem foldl_processKey_plain (newPrefs : Fields) (key : String)
    (hkdot : '.' ∉ key.data)
    (hplain : ∀ fs, getProp newPrefs key = JsVal.obj fs →
      ∀ nk ∈ fs.map Prod.fst, isIncLeaf (getProp fs nk) = false) :
    ∀ (ks : List String) (payload : Payload), (∀ k ∈ ks, '.' ∉ k.data) → key ∈ ks →
      assocGet (ks.foldl (processKey newPrefs) payload) (fieldPath key) =
        some (Instr.lit (getProp newPrefs key))
  | [], _, _, h => by simp at h
  | a :: rest, payload, hdots, h => by
    simp only [List.foldl_cons]
    by_cases hr : key ∈ rest
    · exact foldl_processKey_plain newPrefs key hkdot hplain rest _
        (fun k hk => hdots k (List.mem_cons_of_mem _ hk)) hr
    · have ha : key = a := by
        rcases List.mem_cons.mp h with h1 | h1
        · exact h1
        · exact absurd h1 hr
      subst ha
      rw [foldl_processKey_other newPrefs _ rest]
      · rw [processKey_plain newPrefs payload key hplain]
        exact assocGet_assocSet_self _ _ _
      · intro k hk p
        apply processKey_other
        · exact fun e => hr (fieldPath_inj e ▸ hk)
        · intro nq e
          exact fieldPath_ne_nestedPath hkdot e.symm

theorem foldl_processKey_plain_no_nested (newPrefs : Fields) (key nk : String)
    (hkdot : '.' ∉ key.data)
    (hplain : ∀ fs, getProp newPrefs key = JsVal.obj fs →
      ∀ nk ∈ fs.map Prod.fst, isIncLeaf (getProp fs nk) = false)
    (ks : List String) (payload : Payload) (hdots : ∀ k ∈ ks, '.' ∉ k.data) :
    assocGet (ks.foldl (processKey newPrefs) payload) (nestedPath key nk) =
      assocGet payload (nestedPath key nk) := by
  apply foldl_processKey_other
  intro k hk p
  by_cases hkk : k = key
  · subst hkk
    rw [processKey_plain newPrefs p k hplain]
    exact assocGet_assocSet_ne _ _ _ _ (fun e => nestedPath_ne_fieldPath_self k nk e.symm)
  · apply processKey_other
    · exact fieldPath_ne_nestedPath (hdots k hk)
    · intro nq e
      exact hkk (nestedPath_inj_left (hdots k hk) hkdot e)

/-- C25 (amended): when no top-level field name of the request contains a dot,
then for every top-level field `key` whose value is not an object with an
increment-tagged leaf (a string, number, boolean, array, null, or an object
without such a leaf) the payload has exactly one entry for the field,
`preferences.key` mapped to the value unchanged, and no entry at any nested
path `preferences.key.nk`. -/
theorem buildPayload_plain_entry (newPrefs : Fields) (key : String)
    (hdots : ∀ k ∈ newPrefs.map Prod.fst, '.' ∉ k.data)
    (hkey : key ∈ newPrefs.map Prod.fst)
    (hplain : ∀ fs, getProp newPrefs key = JsVal.obj fs →
      ∀ nk ∈ fs.map Prod.fst, isIncLeaf (getProp fs nk) = false) :
    assocGet (buildPayload newPrefs) (fieldPath key) =
        some (Instr.lit (getProp newPrefs key)) ∧
      ((buildPayload newPrefs).map Prod.fst).count (fieldPath key) = 1 ∧
      ∀ nk, assocGet (buildPayload newPrefs) (nestedPath key nk) = none := by
  have hget := foldl_processKey_plain newPrefs key (hdots key hkey) hplain
    (newPrefs.map Prod.fst) [] hdots hkey
  refine ⟨hget, ?_, ?_⟩
  · exact List.count_eq_one_of_mem (buildPayload_keys_nodup newPrefs)
      (mem_keys_of_assocGet _ _ _ hget)
  · intro nk
    exact foldl_processKey_plain_no_nested newPrefs key nk (hdots key hkey) hplain _ [] hdots

/-- C25 (instance): the field `lastAction` of
`{ dailyLog: { interact: inc 1 }, lastAction: "x" }`. -/
theorem buildPayload_plain_entry_witness :
    assocGet (buildPayload (recordInteractionRequest "x" "t")) (fieldPath "lastAction") =
        some (Instr.lit (getProp (recordInteractionRequest "x" "t") "lastAction")) ∧
      ((buildPayload (recordInteractionRequest "x" "t")).map Prod.fst).count
        (fieldPath "lastAction") = 1 ∧
      ∀ nk, assocGet (buildPayload (recordInteractionRequest "x" "t"))
        (nestedPath "lastAction" nk) = none :=
  buildPayload_plain_entry (recordInteractionRequest "x" "t") "lastAction" (by decide)
    (by decide)
    (by
      intro fs h
      have hv : getProp (recordInteractionRequest "x" "t") "lastAction" = JsVal.str "x" := rfl
      rw [hv] at h
      cases h)

/-- C25 (as stated, fails): in `{ "a.b": 7, a: { b: inc 1 } }` the field `a.b`
has the plain value 7, but the payload entry at `preferences.a.b` is the
increment written afterwards for the leaf `b` of the field `a`. -/
theorem buildPayload_dotted_key_loses_literal :
    getProp [("a.b", JsVal.num 7), ("a", JsVal.obj [("b", incTag 1)])] "a.b" = JsVal.num 7 ∧
      buildPayload [("a.b", JsVal.num 7), ("a", JsVal.obj [("b", incTag 1)])] =
        [("preferences.a.b", Instr.increment (JsVal.num 1))] ∧
      assocGet (buildPayload [("a.b", JsVal.num 7), ("a", JsVal.obj [("b", incTag 1)])])
        (fieldPath "a.b") ≠ some (Instr.lit (JsVal.num 7)) := by
  refine ⟨rfl, rfl, ?_⟩
  intro h
  have h2 : assocGet (buildPayload [("a.b", JsVal.num 7), ("a", JsVal.obj [("b", incTag 1)])])
      (fieldPath "a.b") = some (Instr.increment (JsVal.num 1)) := rfl
  rw [h2] at h
  cases h

/-! ## Object spread and the counts merged by `incrementDailyAction` -/

theorem assocSet_of_not_mem {α : Type} (l : List (String × α)) (k : String) (v : α)
    (h : k ∉ l.map Prod.fst) : assocSet l k v = l ++ [(k, v)] := by
  induction l with
  | nil => rfl
  | cons e rest ih =>
    obtain ⟨k1, w⟩ := e
    have h1 : k1 ≠ k := fun e1 => h (by simp [e1])
    have h2 : k ∉ rest.map Prod.fst := fun m => h (by simp [m])
    simp [assocSet, h1, ih h2]

theorem spread_eq_append {α : Type} :
    ∀ (b a : List (String × α)), ((a ++ b).map Prod.fst).Nodup → spread a b = a ++ b
  | [], a, _ => by simp [spread]
  | e :: rest, a, h => by
    have hk : e.1 ∉ a.map Prod.fst := by
      intro m
      rw [List.map_append, List.nodup_append] at h
      exact h.2.2 m (by simp)
    have h' : (((a ++ [e]) ++ rest).map Prod.fst).Nodup := by simpa using h
    have ih := spread_eq_append rest (a ++ [e]) h'
    unfold spread at ih ⊢
    simp only [List.foldl_cons]
    rw [assocSet_of_not_mem a e.1 e.2 hk, ih]
    simp

theorem spread_nil_of_nodup {α : Type} (b : List (String × α)) (h : (b.map Prod.fst).Nodup) :
    spread [] b = b := by
  have := spread_eq_append b [] (by simpa using h)
  simpa using this

theorem spread_keys_nodup {α : Type} :
    ∀ (b a : List (String × α)), (a.map Prod.fst).Nodup → ((spread a b).map Prod.fst).Nodup
  | [], _, h => h
  | e :: rest, a, h => by
    have ih := spread_keys_nodup rest (assocSet a e.1 e.2) (assocSet_keys_nodup a e.1 e.2 h)
    unfold spread at ih ⊢
    simpa only [List.foldl_cons] using ih

theorem assocGet_spread_of_mem {α : Type} (k : String) (v : α) :
    ∀ (b a : List (String × α)), (b.map Prod.fst).Nodup → assocGet b k = some v →
      assocGet (spread a b) k = some v
  | [], _, _, h => by simp [assocGet] at h
  | e :: rest, a, hn, h => by
    obtain ⟨k1, w⟩ := e
    have hn' : (rest.map Prod.fst).Nodup := (List.nodup_cons.mp hn).2
    have hk1 : k1 ∉ rest.map Prod.fst := (List.nodup_cons.mp hn).1
    unfold spread
    simp only [List.foldl_cons]
    by_cases hk : k1 = k
    · subst hk
      simp only [assocGet, if_true, Option.some.injEq] at h
      subst h
      have := assocGet_spread_of_not_mem k1 rest (assocSet a k1 w) hk1
      unfold spread at this
      rw [this, assocGet_assocSet_self]
    · simp only [assocGet, hk, if_false] at h
      have := assocGet_spread_of_mem k v rest (assocSet a k1 w) hn' h
      unfold spread at this
      exact this

theorem not_mem_keys_of_assocGet_none {α : Type} (l : List (String × α)) (k : String)
    (h : assocGet l k = none) : k ∉ l.map Prod.fst := by
  induction l with
  | nil => simp
  | cons e rest ih =>
    obtain ⟨k1, w⟩ := e
    by_cases h1 : k1 = k
    · simp [assocGet, h1] at h
    · simp only [assocGet, h1, if_false] at h
      have := ih h
      simp only [List.map_cons, List.mem_cons, not_or]
      exact ⟨fun e => h1 e.symm, this⟩

/-- Reading a count after the spread of a well-formed counts object over
another: the count of the spread object when it has one, the other otherwise. -/
theorem countOf_spread (a b : Counts) (hb : (b.map Prod.fst).Nodup) (k : String) :
    countOf (spread a b) k =
      match assocGet b k with
      | some v => v
      | none => countOf a k := by
  unfold countOf
  cases h : assocGet b k with
  | some v => rw [assocGet_spread_of_mem k v b a hb h]; rfl
  | none => rw [assocGet_spread_of_not_mem k b a (not_mem_keys_of_assocGet_none b k h)]

/-- The loop over the keys of `delta` adds the delta of each key once. -/
theorem countOf_foldl_delta (delta : Counts) (k : String) :
    ∀ (ks : List String) (tc : Counts), ks.Nodup →
      countOf (ks.foldl (fun tc k => assocSet tc k (countOf tc k + countOf delta k)) tc) k =
        if k ∈ ks then countOf tc k + countOf delta k else countOf tc k
  | [], _, _ => by simp
  | a :: rest, tc, hn => by
    have hn' : rest.Nodup := (List.nodup_cons.mp hn).2
    have ha : a ∉ rest := (List.nodup_cons.mp hn).1
    simp only [List.foldl_cons]
    rw [countOf_foldl_delta delta k rest _ hn']
    by_cases hk : a = k
    · subst hk
      simp [ha, countOf, assocGet_assocSet_self]
    · have hk' : ¬ k = a := fun e => hk e.symm
      simp only [List.mem_cons, hk', false_or]
      simp only [countOf, assocGet_assocSet_ne _ _ _ _ hk]

theorem foldl_delta_keys_nodup (delta : Counts) :
    ∀ (ks : List String) (tc : Counts), (tc.map Prod.fst).Nodup →
      ((ks.foldl (fun tc k => assocSet tc k (countOf tc k + countOf delta k)) tc).map
        Prod.fst).Nodup
  | [], _, h => h
  | a :: rest, tc, h => by
    simp only [List.foldl_cons]
    exact foldl_delta_keys_nodup delta rest _ (assocSet_keys_nodup _ _ _ h)

/-- The counts merged for today form a well-formed object. -/
theorem todayCountsOf_keys_nodup (preferences : Prefs) (todayKey : String) (delta : Counts) :
    ((todayCountsOf preferences todayKey delta).map Prod.fst).Nodup := by
  unfold todayCountsOf
  simp only
  apply foldl_delta_keys_nodup
  apply spread_keys_nodup
  apply spread_keys_nodup
  exact List.nodup_nil

/-- Each count merged for today: the cached `dailyLog` count when there is one,
otherwise the count of today's history entry, otherwise 0; plus the delta. -/
theorem countOf_todayCountsOf (preferences : Prefs) (todayKey : String) (delta : Counts)
    (hlog : (preferences.dailyLog.map Prod.fst).Nodup)
    (hhist : (((assocGet preferences.dailyHistory todayKey).getD []).map Prod.fst).Nodup)
    (hdelta : (delta.map Prod.fst).Nodup) (k : String) :
    countOf (todayCountsOf preferences todayKey delta) k =
      nullishCount (assocGet preferences.dailyLog k)
        (assocGet ((assocGet preferences.dailyHistory todayKey).getD []) k) +
        countOf delta k := by
  unfold todayCountsOf
  simp only
  rw [countOf_foldl_delta delta k _ _ hdelta, countOf_spread _ _ hlog,
    spread_nil_of_nodup _ hhist]
  have hd : k ∉ delta.map Prod.fst → countOf delta k = 0 := by
    intro hnot
    unfold countOf
    cases h : assocGet delta k with
    | none => rfl
    | some v => exact absurd (mem_keys_of_assocGet _ _ _ h) hnot
  by_cases hm : k ∈ delta.map Prod.fst
  · simp only [hm, if_true]
    cases assocGet preferences.dailyLog k <;> cases h2 : assocGet
      ((assocGet preferences.dailyHistory todayKey).getD []) k <;>
      simp [nullishCount, countOf, h2]
  · simp only [hm, if_false, hd hm]
    cases assocGet preferences.dailyLog k <;> cases h2 : assocGet
      ((assocGet preferences.dailyHistory todayKey).getD []) k <;>
      simp [nullishCount, countOf, h2]

/-- The `dailyLog` and `dailyHistory` fields of the request of
`incrementDailyAction`, for a `meta` that has neither property. -/
theorem dailyActionRequest_fields (preferences : Prefs) (todayKey : String) (delta : Counts)
    (meta : Fields) (hmeta : "dailyLog" ∉ meta.map Prod.fst ∧ "dailyHistory" ∉ meta.map Prod.fst) :
    getProp (dailyActionRequest preferences todayKey delta meta) "dailyLog" =
        countsToJs (todayCountsOf preferences todayKey delta) ∧
      getProp (dailyActionRequest preferences todayKey delta meta) "dailyHistory" =
        JsVal.obj
          ((assocSet preferences.dailyHistory todayKey
            (todayCountsOf preferences todayKey delta)).map
            (fun kv => (kv.1, countsToJs kv.2))) := by
  unfold dailyActionRequest getProp
  simp only
  rw [assocGet_spread_of_not_mem "dailyLog" meta _ hmeta.1,
    assocGet_spread_of_not_mem "dailyHistory" meta _ hmeta.2,
    spread_nil_of_nodup _ (todayCountsOf_keys_nodup preferences todayKey delta)]
  refine ⟨rfl, ?_⟩
  simp [assocGet, spread]

/-- C28 (fails on the code): on 2025-01-02 the history has no entry for the day
and the cached `dailyLog` still holds the counts `{ feed: 3, play: 2 }` of
2025-01-01.  The feed of the drop handler at 08:00 UTC,
`incrementDailyAction({ feed: 1 }, { lastFed, lastFedAt })`, writes
`{ feed: 4, play: 2 }` to `dailyLog` and under the key 2025-01-02: the counts
of the previous day plus the delta, not the delta `{ feed: 1 }` alone. -/
theorem incrementDailyAction_rollover_keeps_old_counts :
    todayKey 1735804800000 = "2025-01-02" ∧
      assocGet rolloverCache.dailyHistory "2025-01-02" = none ∧
      getProp
          (dailyActionRequest rolloverCache "2025-01-02" [("feed", 1)]
            (ActionMeta.fed "apple" "2025-01-02T08:00:00.000Z").fields)
          "dailyLog" =
        JsVal.obj [("feed", JsVal.num 4), ("play", JsVal.num 2)] ∧
      getProp
          (dailyActionRequest rolloverCache "2025-01-02" [("feed", 1)]
            (ActionMeta.fed "apple" "2025-01-02T08:00:00.000Z").fields)
          "dailyHistory" =
        JsVal.obj
          [("2025-01-01", JsVal.obj [("feed", JsVal.num 3), ("play", JsVal.num 2)]),
           ("2025-01-02", JsVal.obj [("feed", JsVal.num 4), ("play", JsVal.num 2)])] ∧
      countOf (todayCountsOf rolloverCache "2025-01-02" [("feed", 1)]) "feed" ≠
        countOf [("feed", 1)] "feed" ∧
      countOf (todayCountsOf rolloverCache "2025-01-02" [("feed", 1)]) "play" ≠
        countOf [("feed", 1)] "play" := by
  refine ⟨by decide, rfl, rfl, rfl, ?_, ?_⟩
  · decide
  · decide

/-- The carry-over in general: on the first `incrementDailyAction` of a day
(the cached history has no entry for today's key) every count written is the
count of the cached `dailyLog` plus the delta; these counts are written to
`dailyLog` and appended to `dailyHistory` under today's key (for a `meta`
without `dailyLog` and `dailyHistory` properties, as at every call site). -/
theorem incrementDailyAction_rollover_carries_over (preferences : Prefs) (todayKey : String)
    (delta : Counts) (meta : Fields)
    (hnew : assocGet preferences.dailyHistory todayKey = none)
    (hlog : (preferences.dailyLog.map Prod.fst).Nodup)
    (hdelta : (delta.map Prod.fst).Nodup)
    (hmeta : "dailyLog" ∉ meta.map Prod.fst ∧ "dailyHistory" ∉ meta.map Prod.fst) :
    (∀ k, countOf (todayCountsOf preferences todayKey delta) k =
        countOf preferences.dailyLog k + countOf delta k) ∧
      getProp (dailyActionRequest preferences todayKey delta meta) "dailyLog" =
        countsToJs (todayCountsOf preferences todayKey delta) ∧
      getProp (dailyActionRequest preferences todayKey delta meta) "dailyHistory" =
        JsVal.obj
          ((preferences.dailyHistory ++
            [(todayKey, todayCountsOf preferences todayKey delta)]).map
            (fun kv => (kv.1, countsToJs kv.2))) := by
  obtain ⟨h1, h2⟩ := dailyActionRequest_fields preferences todayKey delta meta hmeta
  refine ⟨?_, h1, ?_⟩
  · intro k
    rw [countOf_todayCountsOf preferences todayKey delta hlog (by rw [hnew]; simp) hdelta k,
      hnew]
    cases h : assocGet preferences.dailyLog k <;> simp [nullishCount, countOf, h, assocGet]
  · rw [h2, assocSet_of_not_mem _ _ _ (not_mem_keys_of_assocGet_none _ _ hnew)]

/-- The carry-over on the morning of 2025-01-02. -/
theorem incrementDailyAction_rollover_carries_over_witness :
    (∀ k, countOf (todayCountsOf rolloverCache "2025-01-02" [("feed", 1)]) k =
        countOf rolloverCache.dailyLog k + countOf [("feed", 1)] k) ∧
      getProp (dailyActionRequest rolloverCache "2025-01-02" [("feed", 1)] []) "dailyLog" =
        countsToJs (todayCountsOf rolloverCache "2025-01-02" [("feed", 1)]) ∧
      getProp (dailyActionRequest rolloverCache "2025-01-02" [("feed", 1)] [])
        "dailyHistory" =
        JsVal.obj
          ((rolloverCache.dailyHistory ++
            [("2025-01-02", todayCountsOf rolloverCache "2025-01-02" [("feed", 1)])]).map
            (fun kv => (kv.1, countsToJs kv.2))) :=
  incrementDailyAction_rollover_carries_over rolloverCache "2025-01-02" [("feed", 1)] []
    rfl (by decide) (by decide) (by decide)

/-- No call site passes a `dailyLog` or `dailyHistory` property in `meta`. -/
theorem ActionMeta_fields_keys (m : ActionMeta) :
    "dailyLog" ∉ m.fields.map Prod.fst ∧ "dailyHistory" ∉ m.fields.map Prod.fst := by
  cases m <;> simp [ActionMeta.fields]

/-- C29: for the metadata of every call site, the `dailyHistory` written by
`incrementDailyAction` is the cached history with the entry of today's key set:
every other date key keeps its cached counts, no key other than today's is
added, and the entry written for today is the counts object written to
`dailyLog` in the same update. -/
theorem incrementDailyAction_rewrites_only_today (preferences : Prefs) (todayKey : String)
    (delta : Counts) (m : ActionMeta) :
    getProp (dailyActionRequest preferences todayKey delta m.fields) "dailyHistory" =
        JsVal.obj
          ((assocSet preferences.dailyHistory todayKey
            (todayCountsOf preferences todayKey delta)).map
            (fun kv => (kv.1, countsToJs kv.2))) ∧
      (∀ key, key ≠ todayKey →
        assocGet
            (assocSet preferences.dailyHistory todayKey
              (todayCountsOf preferences todayKey delta)) key =
          assocGet preferences.dailyHistory key) ∧
      (∀ key ∈ (assocSet preferences.dailyHistory todayKey
          (todayCountsOf preferences todayKey delta)).map Prod.fst,
        key = todayKey ∨ key ∈ preferences.dailyHistory.map Prod.fst) ∧
      assocGet
          (assocSet preferences.dailyHistory todayKey
            (todayCountsOf preferences todayKey delta)) todayKey =
        some (todayCountsOf preferences todayKey delta) ∧
      getProp (dailyActionRequest preferences todayKey delta m.fields) "dailyLog" =
        countsToJs (todayCountsOf preferences todayKey delta) := by
  obtain ⟨h1, h2⟩ :=
    dailyActionRequest_fields preferences todayKey delta m.fields (ActionMeta_fields_keys m)
  refine ⟨h2, ?_, ?_, assocGet_assocSet_self _ _ _, h1⟩
  · intro key hkey
    exact assocGet_assocSet_ne _ _ _ _ (fun e => hkey e.symm)
  · intro key hkey
    rw [assocSet_keys] at hkey
    by_cases hm : todayKey ∈ preferences.dailyHistory.map Prod.fst
    · rw [if_pos hm] at hkey
      exact Or.inr hkey
    · rw [if_neg hm, List.mem_append, List.mem_singleton] at hkey
      rcases hkey with h | h
      · exact Or.inr h
      · exact Or.inl h

/-- C29 (instance): the feed of 2025-01-02 with the metadata of the drop
handler; the entry of 2025-01-01 is written back as cached and the entry of
2025-01-02 is the `dailyLog` written. -/
theorem incrementDailyAction_rewrites_only_today_witness :
    ("2025-01-01" ≠ "2025-01-02" ∧
      assocGet rolloverCache.dailyHistory "2025-01-01" = some [("feed", 3), ("play", 2)]) ∧
    assocGet
        (assocSet rolloverCache.dailyHistory "2025-01-02"
          (todayCountsOf rolloverCache "2025-01-02" [("feed", 1)])) "2025-01-01" =
      assocGet rolloverCache.dailyHistory "2025-01-01" :=
  ⟨⟨by decide, rfl⟩,
    (incrementDailyAction_rewrites_only_today rolloverCache "2025-01-02" [("feed", 1)]
      (ActionMeta.fed "apple" "2025-01-02T08:00:00.000Z")).2.1 "2025-01-01" (by decide)⟩

/-! ## Local-shadow writes -/

/-- In the push handler a throwing storage write is swallowed: whatever the
storage does, the cache is replaced by the pushed preferences and loading
ends. -/
theorem onSnapshotNext_survives_storage_failure (username : Option String)
    (sf : StorageFaults) (data : Fields) (s : HookState) :
    (onSnapshotNext username sf (some data) s).preferences =
        (getProp data "preferences").or (JsVal.obj []) ∧
      (onSnapshotNext username sf (some data) s).loading = false := by
  refine ⟨onSnapshotNext_preferences username sf data s, ?_⟩
  unfold onSnapshotNext
  rfl

/-- When `sessionStorage.setItem` does not throw, `confirm` issues
`updatePreferences({ currentModel, selectedPet })`. -/
theorem confirm_issues_update (userDocRef : Option String) (faults : Faults)
    (sf : StorageFaults) (selected modelAtIndex : JsVal) (p : PageState)
    (hsave : (selected.or modelAtIndex).truthy = true) (hok : sf.sessionSetItem = false) :
    (PetModelSelectPage.confirm userDocRef faults sf selected modelAtIndex p).world.store =
      (updatePreferences userDocRef faults
        [("currentModel", selected.or modelAtIndex),
         ("selectedPet", (selected.or modelAtIndex).get "id")] p.world.store).2 := by
  unfold PetModelSelectPage.confirm
  simp [hsave, hok, World.updatePreferences]

/-- C21 (fails on the code): in `confirm` the call `sessionStorage.setItem` is
inside the same `try` block as `updatePreferences`; when it throws, `confirm`
goes to `catch` and issues no store operation and does not navigate, whereas
with a working storage the read and the update are issued.  In the push
handler the storage failure is swallowed. -/
theorem confirm_storage_failure_blocks_update :
    (PetModelSelectPage.confirm (some "bob") Faults.none quotaFaults dogModel JsVal.undef
        samplePage).world.store.log = [] ∧
      (PetModelSelectPage.confirm (some "bob") Faults.none quotaFaults dogModel JsVal.undef
        samplePage).navigated = none ∧
      (PetModelSelectPage.confirm (some "bob") Faults.none noStorageFaults dogModel JsVal.undef
        samplePage).world.store.log.length = 2 ∧
      (PetModelSelectPage.confirm (some "bob") Faults.none noStorageFaults dogModel JsVal.undef
        samplePage).world.store.read "preferences.selectedPet" = JsVal.str "dog" ∧
      (onSnapshotNext (some "bob") quotaFaults (some pushedDoc) staleHook).preferences =
        JsVal.obj [("dailyLog", JsVal.obj [("feed", JsVal.num 2)])] ∧
      (onSnapshotNext (some "bob") quotaFaults (some pushedDoc) staleHook).loading = false :=
  ⟨rfl, rfl, rfl, rfl, rfl, rfl⟩

/-! ## The stats variants -/

/-- The day-success flag of MainContent's `computeStats`: feed at least 3 and
play at least 4. -/
theorem computeStats_streak_iff (log : Counts) :
    (MainContent.computeStats log).streak = 1 ↔
      3 ≤ countOf log "feed" ∧ 4 ≤ countOf log "play" := by
  unfold MainContent.computeStats
  simp only
  by_cases h : countOf log "feed" ≥ 3 ∧ countOf log "play" ≥ 4
  · rw [if_pos h]
    exact ⟨fun _ => h, fun _ => rfl⟩
  · rw [if_neg h]
    exact ⟨fun e => absurd e (by decide), fun e => absurd e h⟩

/-- C22 (fails on the code): for the day `{ feed: 3, play: 3 }` the criterion
of `computeStreak` holds (the day counts as a success at offset 0), but the
flag `stats.streak` of MainContent's `computeStats` is 0: it tests play ≥ 4. -/
theorem computeStats_streak_uses_play_four :
    (countOf (LeftSidebar.streakDay targetDayCache sampleDayKey 0) "feed" ≥ 3 ∧
        countOf (LeftSidebar.streakDay targetDayCache sampleDayKey 0) "play" ≥ 3) ∧
      specDayMeetsTargets targetDayCache sampleDayKey 0 = true ∧
      (MainContent.computeStats targetDayCache.dailyLog).streak = 0 ∧
      (MainContent.computeStats [("feed", 3), ("play", 4)]).streak = 1 := by
  decide

/-- The xp of LeftSidebar's `computeStats` sums all five counts. -/
theorem LeftSidebar_computeStats_xp (counts : DayCounts) :
    (LeftSidebar.computeStats counts).xp = specXp counts := by
  unfold LeftSidebar.computeStats specXp
  simp only
  congr 1
  ring

/-- The xp of MainContent's `computeStats` sums feed, play, groom and rest. -/
theorem MainContent_computeStats_xp (log : Counts) :
    (MainContent.computeStats log).xp =
      min 100 (10 * (countOf log "feed" + countOf log "play" + countOf log "groom" +
        countOf log "rest")) := by
  unfold MainContent.computeStats
  simp only
  congr 1
  ring

/-- C23 (fails on the code): for the daily log `{ interact: 1 }` the pure xp
is `min(100, 10 * 1) = 10` and LeftSidebar's `computeStats` gives 10, but
MainContent's `computeStats` leaves `interact` out of the sum and gives 0. -/
theorem MainContent_computeStats_xp_omits_interact :
    specXp (dayCountsOf [("interact", 1)]) = 10 ∧
      (LeftSidebar.computeStats (LeftSidebar.getTodayCounts interactCache "2025-01-02")).xp =
        10 ∧
      (MainContent.computeStats interactCache.dailyLog).xp = 0 := by
  decide

/-- The hunger, happiness and energy stored by `incrementDailyAction` are those
of LeftSidebar's `computeStats` on the same counts. -/
theorem newStatsOf_agrees_with_LeftSidebar (preferences : Prefs) (todayCounts delta : Counts) :
    getProp (newStatsOf preferences todayCounts delta) "hunger" =
        JsVal.num (LeftSidebar.computeStats (dayCountsOf todayCounts)).hunger ∧
      getProp (newStatsOf preferences todayCounts delta) "happiness" =
        JsVal.num (LeftSidebar.computeStats (dayCountsOf todayCounts)).happiness ∧
      getProp (newStatsOf preferences todayCounts delta) "energy" =
        JsVal.num (LeftSidebar.computeStats (dayCountsOf todayCounts)).energy := by
  obtain ⟨h1, h2, h3, _, _⟩ := newStatsOf_fields preferences todayCounts delta
  exact ⟨h1, h2, h3⟩

/-- C26 (fails on the code): for the counts `{ groom: 1 }` the love stored by
`incrementDailyAction` is 15 (`groom * 15`), the love derived by LeftSidebar's
`computeStats` from the same counts is 0 (`interact * 15`). -/
theorem newStatsOf_love_differs_from_LeftSidebar :
    getProp (newStatsOf (feedCache 0) [("groom", 1)] [("groom", 1)]) "love" = JsVal.num 15 ∧
      (LeftSidebar.computeStats (dayCountsOf [("groom", 1)])).love = 0 :=
  ⟨rfl, rfl⟩

/-- C27 (fails on the code): for the daily log `{ feed: 1, play: 1 }`
MainContent's `computeStats` displays hunger 20 and happiness 25
(`feed * 20`, `play * 25`), while `incrementDailyAction` stores hunger 33 and
happiness 33 (`round(count / 3 * 100)`) for the same counts. -/
theorem MainContent_display_differs_from_stored :
    (MainContent.computeStats [("feed", 1), ("play", 1)]).hunger = 20 ∧
      (MainContent.computeStats [("feed", 1), ("play", 1)]).happiness = 25 ∧
      getProp (newStatsOf (feedCache 0) [("feed", 1), ("play", 1)] []) "hunger" =
        JsVal.num 33 ∧
      getProp (newStatsOf (feedCache 0) [("feed", 1), ("play", 1)] []) "happiness" =
        JsVal.num 33 ∧
      specPercent 1 = 33 :=
  ⟨rfl, rfl, rfl, rfl, by rw [specPercent, ← roundPercent_eq_roundHalfUp]; rfl⟩

/-! ## `recordInteraction` -/

/-- The payload of the hook module's `recordInteraction`: an atomic increment
by 1 of `preferences.dailyLog.interact` and two literal writes. -/
theorem recordInteractionRequest_payload (action lastActionAt : String) :
    buildPayload (recordInteractionRequest action lastActionAt) =
      [("preferences.dailyLog.interact", Instr.increment (JsVal.num 1)),
       ("preferences.lastAction", Instr.lit (JsVal.str action)),
       ("preferences.lastActionAt", Instr.lit (JsVal.str lastActionAt))] := by
  have h1 : nestedPath "dailyLog" "interact" = "preferences.dailyLog.interact" := rfl
  have h2 : fieldPath "lastAction" = "preferences.lastAction" := rfl
  have h3 : fieldPath "lastActionAt" = "preferences.lastActionAt" := rfl
  have hi : isIncLeaf (incTag 1) = true := rfl
  have hl : leafInstr (incTag 1) = Instr.increment (JsVal.num 1) := rfl
  simp [buildPayload, recordInteractionRequest, processKey, getProp, assocGet, truthy,
    typeofObject, isArray, keys, JsVal.get, hi, hl, h1, h2, h3, assocSet]

/-- C24 (fails on the code): the hook module's `recordInteraction` issues an
atomic increment by 1 at `preferences.dailyLog.interact` with literal writes of
`lastAction` and `lastActionAt`; RightSidebar's own `recordInteraction` writes
the whole field `preferences.dailyLog` computed from the cache.  With the cache
`{ feed: 2, interact: 1 }` and the stored log `{ feed: 5, interact: 1 }` the
first leaves feed at 5, the second sets it back to 2. -/
theorem RightSidebar_recordInteraction_overwrites_log :
    buildPayload (recordInteractionRequest "Interacted" "2025-01-02T10:00:00.000Z") =
        [("preferences.dailyLog.interact", Instr.increment (JsVal.num 1)),
         ("preferences.lastAction", Instr.lit (JsVal.str "Interacted")),
         ("preferences.lastActionAt", Instr.lit (JsVal.str "2025-01-02T10:00:00.000Z"))] ∧
      buildPayload (RightSidebar.recordInteractionRequest chatCache) =
        [("preferences.dailyLog",
          Instr.lit (JsVal.obj [("feed", JsVal.num 2), ("interact", JsVal.num 2)]))] ∧
      (recordInteraction (some "bob") Faults.none "Interacted" "2025-01-02T10:00:00.000Z"
        chatStore).2.read "preferences.dailyLog.feed" = JsVal.num 5 ∧
      (recordInteraction (some "bob") Faults.none "Interacted" "2025-01-02T10:00:00.000Z"
        chatStore).2.read "preferences.dailyLog.interact" = JsVal.num 2 ∧
      (RightSidebar.recordInteraction (some "bob") Faults.none chatCache chatStore).2.read
        "preferences.dailyLog.feed" = JsVal.num 2 ∧
      (RightSidebar.recordInteraction (some "bob") Faults.none chatCache chatStore).2.read
        "preferences.dailyLog.interact" = JsVal.num 2 :=
  ⟨rfl, rfl, rfl, rfl, rfl, rfl⟩

/-! ## The result of `incrementDailyAction` -/

/-- The result of `incrementDailyAction` is `{ ok: true }` whatever the call of
`updatePreferences` returned. -/
theorem incrementDailyAction_result (userDocRef : Option String) (faults : Faults)
    (preferences : Prefs) (todayKey : String) (delta : Counts) (meta : Fields) (store : Store) :
    (incrementDailyAction userDocRef faults preferences todayKey delta meta store).1 =
      { ok := true, reason := none } :=
  rfl

/-- C30 (fails on the code): when the store read fails, the call of
`updatePreferences` made by `incrementDailyAction` returns
`{ ok: false, reason }`, but `incrementDailyAction` drops that result and
returns `{ ok: true }`; the same happens with nobody logged in. -/
theorem incrementDailyAction_hides_failure :
    (updatePreferences (some "bob") offlineFaults
        (dailyActionRequest (feedCache 0) "2025-01-02" [("play", 1)] []) (feedStore 0)).1.ok =
        false ∧
      (incrementDailyAction (some "bob") offlineFaults (feedCache 0) "2025-01-02" [("play", 1)]
        [] (feedStore 0)).1 = { ok := true, reason := none } ∧
      (incrementDailyAction (some "bob") offlineFaults (feedCache 0) "2025-01-02" [("play", 1)]
        [] (feedStore 0)).2.doc = (feedStore 0).doc ∧
      (incrementDailyAction none Faults.none (feedCache 0) "2025-01-02" [("play", 1)]
        [] (feedStore 0)).1 = { ok := true, reason := none } :=
  ⟨rfl, rfl, rfl, rfl⟩

end Petzy
